import Mathlib

/-!
Verification of the WplacePixelConverter quantization/dithering core
(`dithering.js` and `utils.js`).

Pixels are modelled as rational triples (JS numbers under the exact-arithmetic
reading), grids as total functions from coordinates to pixels, mutation as
functional update.  The Lab conversion (`rgbToLab`, floating-point
transcendental code) is kept abstract as a parameter `labOf`; everything else
is translated directly from the source.
-/

/-- An RGB pixel `[r, g, b]`. -/
abbrev Pixel := ℚ × ℚ × ℚ

/-- A pixel grid, indexed `g y x` like `rgbChannels[y][x]`. -/
abbrev Grid := ℕ → ℕ → Pixel

/-- An alpha channel, indexed `a y x` like `alphaChannel[y][x]`. -/
abbrev AlphaGrid := ℕ → ℕ → ℚ

/-- `utils.js` `clamp(value, min, max) = Math.min(Math.max(value, min), max)`. -/
def clamp (value lo hi : ℚ) : ℚ := min (max value lo) hi

/-- Functional update of one grid cell: `g[y][x] = p`. -/
def setPix (g : Grid) (y x : ℕ) (p : Pixel) : Grid :=
  fun y0 x0 => if y0 = y ∧ x0 = x then p else g y0 x0

/-- All three channels lie in `[0, 255]`. -/
def inRange255 (p : Pixel) : Prop :=
  0 ≤ p.1 ∧ p.1 ≤ 255 ∧ 0 ≤ p.2.1 ∧ p.2.1 ≤ 255 ∧ 0 ≤ p.2.2 ∧ p.2.2 ≤ 255

instance (p : Pixel) : Decidable (inRange255 p) := by
  unfold inRange255; infer_instance

/-! ## Nearest-colour search (`utils.js`, `findClosestColorInPalette`) -/

/-- `d < minDistance` where `minDistance` starts as JS `Infinity` (`none`). -/
def ltOpt {α : Type} [LinearOrder α] (d : α) : Option α → Bool
  | none => true
  | some m => decide (d < m)

/-- The `for (const color of palette) { if (d < minDistance) ... }` selection
loop shared by the three distance modes: `minD` is the running minimum
(`none` = `Infinity`), `best` the running `closestColor`/`bestIdx`. -/
def selectLoop {β α : Type} [LinearOrder α] (f : β → α) :
    List β → Option α → β → β
  | [], _, best => best
  | c :: rest, minD, best =>
    if ltOpt (f c) minD then selectLoop f rest (some (f c)) c
    else selectLoop f rest minD best

/-- `deltaE76(lab1, lab2) = dL*dL + da*da + db*db` (squared distance). -/
def deltaE76 (lab1 lab2 : Pixel) : ℚ :=
  (lab1.1 - lab2.1) * (lab1.1 - lab2.1) +
    (lab1.2.1 - lab2.2.1) * (lab1.2.1 - lab2.2.1) +
    (lab1.2.2 - lab2.2.2) * (lab1.2.2 - lab2.2.2)

/-- JS `ToInt32`: wrap an integer to the signed 32-bit range. -/
def toInt32 (n : ℤ) : ℤ := (n + 2 ^ 31) % 2 ^ 32 - 2 ^ 31

/-- JS truncation toward zero of a number (the `| 0` conversion step). -/
def jsTrunc (q : ℚ) : ℤ := q.num / (q.den : ℤ)

/-- JS `x | 0` on a number: truncate toward zero, then wrap to int32. -/
def jsToInt32 (q : ℚ) : ℤ := toInt32 (jsTrunc q)

/-- JS `a >> k`: wrap to int32, then arithmetic shift right
(floor division by `2^k`). -/
def jsShr (a : ℤ) (k : ℕ) : ℤ := Int.fdiv (toInt32 a) (2 ^ k)

/-- The compuphase ("redmean") distance body from `findClosestColorInPalette`,
mode `"compuphase"`, applied to the already-converted integer channels
`pr pg pb` of the pixel and `r g b` of the candidate colour. -/
def compuphaseD (pr pg pb r g b : ℤ) : ℤ :=
  let rmean := jsShr (r + pr) 1
  let rdiff := r - pr
  let gdiff := g - pg
  let bdiff := b - pb
  jsShr ((512 + rmean) * rdiff * rdiff) 8 + 4 * (gdiff * gdiff) +
    jsShr ((767 - rmean) * bdiff * bdiff) 8

/-- The three distance modes of `findClosestColorInPalette`. -/
inductive DistMode | rgb | compuphase | lab

/-- `utils.js` `findClosestColorInPalette(pixel, palette, mode = "lab")`.

`labOf` abstracts the floating-point `rgbToLab` conversion; the Lab branch
uses `palette.map labOf` exactly as the (semantically transparent) WeakMap
cache `labs = palette.map(rgbToLab)` does, and tracks the best index `i`
over `0 ≤ i < labs.length`, returning `[...palette[bestIdx]]`. -/
def findClosestColorInPalette (labOf : Pixel → Pixel) (mode : DistMode)
    (pixel : Pixel) (palette : List Pixel) : Pixel :=
  if palette.isEmpty then (0, 0, 0)
  else
    match mode with
    | .rgb =>
      let pr := pixel.1
      let pg := pixel.2.1
      let pb := pixel.2.2
      selectLoop
        (fun c =>
          (c.1 - pr) * (c.1 - pr) + (c.2.1 - pg) * (c.2.1 - pg) +
            (c.2.2 - pb) * (c.2.2 - pb))
        palette none palette.headI
    | .compuphase =>
      let pr := jsToInt32 pixel.1
      let pg := jsToInt32 pixel.2.1
      let pb := jsToInt32 pixel.2.2
      selectLoop
        (fun c =>
          compuphaseD pr pg pb (jsToInt32 c.1) (jsToInt32 c.2.1)
            (jsToInt32 c.2.2))
        palette none palette.headI
    | .lab =>
      let labs := palette.map labOf
      let plab := labOf pixel
      let bestIdx :=
        selectLoop (fun i => deltaE76 plab (labs.getD i (0, 0, 0)))
          (List.range labs.length) none 0
      palette.getD bestIdx (0, 0, 0)

/-! ## Shared scan pieces (`dithering.js`) -/

/-- A diffusion kernel entry `{dx, dy, w}`. -/
structure Neighbor where
  dx : ℤ
  dy : ℤ
  w : ℚ
deriving DecidableEq

/-- `right.map((n) => ({ dx: -n.dx, dy: n.dy, w: n.w }))` — one entry. -/
def mirrorN (n : Neighbor) : Neighbor := ⟨-n.dx, n.dy, n.w⟩

/-- `const leftToRight = serpentine ? y % 2 === 0 : true`. -/
def rowLTR (serpentine : Bool) (y : ℕ) : Bool :=
  if serpentine then decide (y % 2 = 0) else true

/-- The sequence of `x` values visited by
`for (let x = xStart; x !== xEnd; x += xStep)`. -/
def rowXs (ltr : Bool) (w : ℕ) : List ℕ :=
  if ltr then List.range w else (List.range w).reverse

/-- Progress reporting after one row:
`if (progressCallback && y % reportEvery === 0) progressCallback((y+1)/h)`;
the recorded list of values passed to the callback. -/
def progressStep (hasCb : Bool) (every h : ℕ) (reps : List ℚ) (y : ℕ) :
    List ℚ :=
  if hasCb ∧ y % every = 0 then reps ++ [((y : ℚ) + 1) / (h : ℚ)] else reps

/-- The neighbour-update body shared verbatim by `applyFloydSteinbergDithering`
and `errorDiffuse`: bounds check, alpha check, then clamped error add. -/
def diffuseToNeighbor (alpha : AlphaGrid) (thr : ℚ) (h w : ℕ) (err : Pixel)
    (y x : ℕ) (g : Grid) (n : Neighbor) : Grid :=
  let nx : ℤ := (x : ℤ) + n.dx
  let ny : ℤ := (y : ℤ) + n.dy
  if nx < 0 ∨ (w : ℤ) ≤ nx ∨ ny < 0 ∨ (h : ℤ) ≤ ny then g
  else if alpha ny.toNat nx.toNat < thr then g
  else
    let p := g ny.toNat nx.toNat
    setPix g ny.toNat nx.toNat
      (clamp (p.1 + err.1 * n.w) 0 255,
       clamp (p.2.1 + err.2.1 * n.w) 0 255,
       clamp (p.2.2 + err.2.2 * n.w) 0 255)

/-- One pixel of `applyFloydSteinbergDithering`'s inner loop (error is *not*
pre-divided; the kernel weights carry the `/16`). -/
def fsPixelStep (labOf : Pixel → Pixel) (palette : List Pixel)
    (alpha : AlphaGrid) (thr strength : ℚ) (h w : ℕ) (neigh : List Neighbor)
    (y : ℕ) (g : Grid) (x : ℕ) : Grid :=
  if alpha y x < thr then g
  else
    let oldP := g y x
    let newP := findClosestColorInPalette labOf .lab oldP palette
    let err : Pixel :=
      ((oldP.1 - newP.1) * strength, (oldP.2.1 - newP.2.1) * strength,
        (oldP.2.2 - newP.2.2) * strength)
    let g1 := setPix g y x newP
    neigh.foldl (diffuseToNeighbor alpha thr h w err y x) g1

/-- One pixel of `errorDiffuse`'s inner loop (error pre-divided by `denom`,
integer kernel weights). -/
def edPixelStep (labOf : Pixel → Pixel) (palette : List Pixel)
    (alpha : AlphaGrid) (thr strength denom : ℚ) (h w : ℕ)
    (neigh : List Neighbor) (y : ℕ) (g : Grid) (x : ℕ) : Grid :=
  if alpha y x < thr then g
  else
    let oldP := g y x
    let newP := findClosestColorInPalette labOf .lab oldP palette
    let err : Pixel :=
      ((oldP.1 - newP.1) * strength / denom,
        (oldP.2.1 - newP.2.1) * strength / denom,
        (oldP.2.2 - newP.2.2) * strength / denom)
    let g1 := setPix g y x newP
    neigh.foldl (diffuseToNeighbor alpha thr h w err y x) g1

/-- Floyd–Steinberg kernel for left-to-right rows (weights carry `/16`). -/
def fsNeighRight : List Neighbor :=
  [⟨1, 0, 7/16⟩, ⟨-1, 1, 3/16⟩, ⟨0, 1, 5/16⟩, ⟨1, 1, 1/16⟩]

/-- Floyd–Steinberg kernel for right-to-left rows (source literal). -/
def fsNeighLeft : List Neighbor :=
  [⟨-1, 0, 7/16⟩, ⟨1, 1, 3/16⟩, ⟨0, 1, 5/16⟩, ⟨-1, 1, 1/16⟩]

/-- One row of `applyFloydSteinbergDithering` (direction + x loop). -/
def fsRowGrid (labOf : Pixel → Pixel) (palette : List Pixel)
    (alpha : AlphaGrid) (thr strength : ℚ) (h w : ℕ) (serpentine : Bool)
    (g : Grid) (y : ℕ) : Grid :=
  let ltr := rowLTR serpentine y
  (rowXs ltr w).foldl
    (fsPixelStep labOf palette alpha thr strength h w
      (if ltr then fsNeighRight else fsNeighLeft) y) g

/-- `applyFloydSteinbergDithering`: returns the output grid together with the
list of values passed to the progress callback. -/
def applyFloydSteinbergDithering (labOf : Pixel → Pixel) (grid : Grid)
    (alpha : AlphaGrid) (h w : ℕ) (palette : List Pixel) (strength thr : ℚ)
    (hasCb serpentine : Bool) : Grid × List ℚ :=
  let reportEvery := max 1 (h / 50)
  let st :=
    (List.range h).foldl
      (fun st y =>
        (fsRowGrid labOf palette alpha thr strength h w serpentine st.1 y,
          progressStep hasCb reportEvery h st.2 y))
      (grid, [])
  (st.1, if hasCb then st.2 ++ [1] else st.2)

/-- One row of `errorDiffuse` (direction, kernel choice, x loop). -/
def edRowGrid (labOf : Pixel → Pixel) (palette : List Pixel)
    (alpha : AlphaGrid) (thr strength denom : ℚ) (h w : ℕ)
    (wR wL : List Neighbor) (serpentine : Bool) (g : Grid) (y : ℕ) : Grid :=
  let ltr := rowLTR serpentine y
  (rowXs ltr w).foldl
    (edPixelStep labOf palette alpha thr strength denom h w
      (if ltr then wR else wL) y) g

/-- `errorDiffuse(rgbChannels, alphaChannel, palette, weightsRight,
weightsLeft, denom, strength, alphaThreshold, progressCallback, serpentine)`. -/
def errorDiffuse (labOf : Pixel → Pixel) (grid : Grid) (alpha : AlphaGrid)
    (h w : ℕ) (palette : List Pixel) (wR wL : List Neighbor)
    (denom strength thr : ℚ) (hasCb serpentine : Bool) : Grid × List ℚ :=
  let reportEvery := max 1 (h / 50)
  let st :=
    (List.range h).foldl
      (fun st y =>
        (edRowGrid labOf palette alpha thr strength denom h w wR wL
            serpentine st.1 y,
          progressStep hasCb reportEvery h st.2 y))
      (grid, [])
  (st.1, if hasCb then st.2 ++ [1] else st.2)

/-! ## The eight error-diffusion kernels and their passes -/

/-- Jarvis–Judice–Ninke kernel, left-to-right form. -/
def jarvisRight : List Neighbor :=
  [⟨1, 0, 7⟩, ⟨2, 0, 5⟩, ⟨-2, 1, 3⟩, ⟨-1, 1, 5⟩, ⟨0, 1, 7⟩, ⟨1, 1, 5⟩,
    ⟨2, 1, 3⟩, ⟨-2, 2, 1⟩, ⟨-1, 2, 3⟩, ⟨0, 2, 5⟩, ⟨1, 2, 3⟩, ⟨2, 2, 1⟩]

/-- `const left = right.map((n) => ({ dx: -n.dx, dy: n.dy, w: n.w }))`. -/
def jarvisLeft : List Neighbor := jarvisRight.map mirrorN

def applyJarvisDithering (labOf : Pixel → Pixel) (grid : Grid)
    (alpha : AlphaGrid) (h w : ℕ) (palette : List Pixel) (strength thr : ℚ)
    (hasCb serpentine : Bool) : Grid × List ℚ :=
  errorDiffuse labOf grid alpha h w palette jarvisRight jarvisLeft 48
    strength thr hasCb serpentine

/-- Stucki kernel, left-to-right form. -/
def stuckiRight : List Neighbor :=
  [⟨1, 0, 8⟩, ⟨2, 0, 4⟩, ⟨-2, 1, 2⟩, ⟨-1, 1, 4⟩, ⟨0, 1, 8⟩, ⟨1, 1, 4⟩,
    ⟨2, 1, 2⟩, ⟨-2, 2, 1⟩, ⟨-1, 2, 2⟩, ⟨0, 2, 4⟩, ⟨1, 2, 2⟩, ⟨2, 2, 1⟩]

def stuckiLeft : List Neighbor := stuckiRight.map mirrorN

def applyStuckiDithering (labOf : Pixel → Pixel) (grid : Grid)
    (alpha : AlphaGrid) (h w : ℕ) (palette : List Pixel) (strength thr : ℚ)
    (hasCb serpentine : Bool) : Grid × List ℚ :=
  errorDiffuse labOf grid alpha h w palette stuckiRight stuckiLeft 42
    strength thr hasCb serpentine

/-- Burkes kernel, left-to-right form. -/
def burkesRight : List Neighbor :=
  [⟨1, 0, 8⟩, ⟨2, 0, 4⟩, ⟨-2, 1, 2⟩, ⟨-1, 1, 4⟩, ⟨0, 1, 8⟩, ⟨1, 1, 4⟩,
    ⟨2, 1, 2⟩]

def burkesLeft : List Neighbor := burkesRight.map mirrorN

def applyBurkesDithering (labOf : Pixel → Pixel) (grid : Grid)
    (alpha : AlphaGrid) (h w : ℕ) (palette : List Pixel) (strength thr : ℚ)
    (hasCb serpentine : Bool) : Grid × List ℚ :=
  errorDiffuse labOf grid alpha h w palette burkesRight burkesLeft 32
    strength thr hasCb serpentine

/-- Atkinson kernel, left-to-right form. -/
def atkinsonRight : List Neighbor :=
  [⟨1, 0, 1⟩, ⟨2, 0, 1⟩, ⟨-1, 1, 1⟩, ⟨0, 1, 1⟩, ⟨1, 1, 1⟩, ⟨0, 2, 1⟩]

def atkinsonLeft : List Neighbor := atkinsonRight.map mirrorN

def applyAtkinsonDithering (labOf : Pixel → Pixel) (grid : Grid)
    (alpha : AlphaGrid) (h w : ℕ) (palette : List Pixel) (strength thr : ℚ)
    (hasCb serpentine : Bool) : Grid × List ℚ :=
  errorDiffuse labOf grid alpha h w palette atkinsonRight atkinsonLeft 8
    strength thr hasCb serpentine

/-- Sierra-Lite kernel, left-to-right form. -/
def sierraLiteRight : List Neighbor := [⟨1, 0, 2⟩, ⟨-1, 1, 1⟩, ⟨0, 1, 1⟩]

def sierraLiteLeft : List Neighbor := sierraLiteRight.map mirrorN

def applySierraLiteDithering (labOf : Pixel → Pixel) (grid : Grid)
    (alpha : AlphaGrid) (h w : ℕ) (palette : List Pixel) (strength thr : ℚ)
    (hasCb serpentine : Bool) : Grid × List ℚ :=
  errorDiffuse labOf grid alpha h w palette sierraLiteRight sierraLiteLeft 4
    strength thr hasCb serpentine

/-- Sierra-2 kernel, left-to-right form. -/
def sierra2Right : List Neighbor :=
  [⟨1, 0, 4⟩, ⟨2, 0, 3⟩, ⟨-2, 1, 1⟩, ⟨-1, 1, 2⟩, ⟨0, 1, 3⟩, ⟨1, 1, 2⟩,
    ⟨2, 1, 1⟩]

def sierra2Left : List Neighbor := sierra2Right.map mirrorN

def applySierra2Dithering (labOf : Pixel → Pixel) (grid : Grid)
    (alpha : AlphaGrid) (h w : ℕ) (palette : List Pixel) (strength thr : ℚ)
    (hasCb serpentine : Bool) : Grid × List ℚ :=
  errorDiffuse labOf grid alpha h w palette sierra2Right sierra2Left 16
    strength thr hasCb serpentine

/-- Sierra-3 kernel, left-to-right form. -/
def sierra3Right : List Neighbor :=
  [⟨1, 0, 5⟩, ⟨2, 0, 3⟩, ⟨-2, 1, 2⟩, ⟨-1, 1, 4⟩, ⟨0, 1, 5⟩, ⟨1, 1, 4⟩,
    ⟨2, 1, 2⟩, ⟨-1, 2, 2⟩, ⟨0, 2, 3⟩, ⟨1, 2, 2⟩]

def sierra3Left : List Neighbor := sierra3Right.map mirrorN

def applySierra3Dithering (labOf : Pixel → Pixel) (grid : Grid)
    (alpha : AlphaGrid) (h w : ℕ) (palette : List Pixel) (strength thr : ℚ)
    (hasCb serpentine : Bool) : Grid × List ℚ :=
  errorDiffuse labOf grid alpha h w palette sierra3Right sierra3Left 32
    strength thr hasCb serpentine

/-! ## Pointwise (stateless) passes: no-dither, Bayer, halftone, random -/

/-- The shared inner `x` loop of the stateless passes: skip below-threshold
pixels, otherwise overwrite `out[y][x]` with a function of `out[y][x]`. -/
def pwRow (alpha : AlphaGrid) (thr : ℚ) (F : ℕ → ℕ → Pixel → Pixel) (w y : ℕ)
    (g : Grid) : Grid :=
  (List.range w).foldl
    (fun g x => if alpha y x < thr then g else setPix g y x (F y x (g y x))) g

/-- `applyNoDithering`: per-pixel nearest-colour replacement. -/
def applyNoDithering (labOf : Pixel → Pixel) (grid : Grid)
    (alpha : AlphaGrid) (h w : ℕ) (palette : List Pixel) (thr : ℚ)
    (hasCb : Bool) : Grid × List ℚ :=
  let reportEvery := max 1 (h / 50)
  let F : ℕ → ℕ → Pixel → Pixel := fun _ _ p =>
    findClosestColorInPalette labOf .lab p palette
  let st :=
    (List.range h).foldl
      (fun st y =>
        (pwRow alpha thr F w y st.1, progressStep hasCb reportEvery h st.2 y))
      (grid, [])
  (st.1, if hasCb then st.2 ++ [1] else st.2)

/-- The 4×4 Bayer matrix of `applyBayerDithering`. -/
def bayerMat : List (List ℚ) :=
  [[0, 8, 2, 10], [12, 4, 14, 6], [3, 11, 1, 9], [15, 7, 13, 5]]

/-- `const norm = mat.map((r) => r.map((v) => v / 16 - 0.5))`. -/
def bayerNorm : List (List ℚ) :=
  bayerMat.map (fun r => r.map (fun v => v / 16 - 1/2))

/-- The per-pixel body of `applyBayerDithering`. -/
def bayerPixelF (labOf : Pixel → Pixel) (palette : List Pixel)
    (intensity : ℚ) (y x : ℕ) (p : Pixel) : Pixel :=
  let scale := intensity / 255
  let t := ((bayerNorm.getD (y % 4) []).getD (x % 4) 0) * scale * 255
  findClosestColorInPalette labOf .lab (p.1 + t, p.2.1 + t, p.2.2 + t) palette

/-- `applyBayerDithering`: 4×4 ordered dithering. -/
def applyBayerDithering (labOf : Pixel → Pixel) (grid : Grid)
    (alpha : AlphaGrid) (h w : ℕ) (palette : List Pixel) (intensity thr : ℚ)
    (hasCb : Bool) : Grid × List ℚ :=
  let st :=
    (List.range h).foldl
      (fun st y =>
        (pwRow alpha thr (bayerPixelF labOf palette intensity) w y st.1,
          progressStep hasCb 25 h st.2 y))
      (grid, [])
  (st.1, if hasCb then st.2 ++ [1] else st.2)

/-- The 8×8 halftone matrix of `applyHalftoneDithering`. -/
def halftoneMat : List (List ℚ) :=
  [[24, 3, 19, 8, 25, 4, 20, 9],
   [12, 43, 52, 35, 11, 44, 53, 36],
   [18, 51, 60, 42, 17, 50, 59, 41],
   [7, 34, 40, 58, 6, 33, 39, 57],
   [26, 5, 21, 10, 27, 2, 22, 1],
   [13, 45, 54, 37, 14, 46, 55, 38],
   [16, 49, 58, 40, 15, 48, 57, 39],
   [1, 32, 38, 56, 0, 31, 37, 55]]

/-- `const norm = mat.map((r) => r.map((v) => v / 64 - 0.5))`. -/
def halftoneNorm : List (List ℚ) :=
  halftoneMat.map (fun r => r.map (fun v => v / 64 - 1/2))

/-- The per-pixel body of `applyHalftoneDithering`. -/
def halftonePixelF (labOf : Pixel → Pixel) (palette : List Pixel)
    (intensity : ℚ) (y x : ℕ) (p : Pixel) : Pixel :=
  let scale := intensity / 255
  let t := ((halftoneNorm.getD (y % 8) []).getD (x % 8) 0) * scale * 255
  findClosestColorInPalette labOf .lab (p.1 + t, p.2.1 + t, p.2.2 + t) palette

/-- `applyHalftoneDithering`: 8×8 ordered dithering. -/
def applyHalftoneDithering (labOf : Pixel → Pixel) (grid : Grid)
    (alpha : AlphaGrid) (h w : ℕ) (palette : List Pixel) (intensity thr : ℚ)
    (hasCb : Bool) : Grid × List ℚ :=
  let st :=
    (List.range h).foldl
      (fun st y =>
        (pwRow alpha thr (halftonePixelF labOf palette intensity) w y st.1,
          progressStep hasCb 25 h st.2 y))
      (grid, [])
  (st.1, if hasCb then st.2 ++ [1] else st.2)

/-- The per-pixel body of `applyRandomDithering`; `rand y x k` is the
`Math.random()` draw for channel `k` of pixel `(x, y)`. -/
def randomPixelF (labOf : Pixel → Pixel) (palette : List Pixel)
    (rand : ℕ → ℕ → ℕ → ℚ) (intensity : ℚ) (y x : ℕ) (p : Pixel) : Pixel :=
  let noise := fun k => (rand y x k * 2 - 1) * intensity
  findClosestColorInPalette labOf .lab
    (p.1 + noise 0, p.2.1 + noise 1, p.2.2 + noise 2) palette

/-- `applyRandomDithering`: independent per-channel noise, no per-row
progress report (only the final `progressCallback(1)`). -/
def applyRandomDithering (labOf : Pixel → Pixel) (rand : ℕ → ℕ → ℕ → ℚ)
    (grid : Grid) (alpha : AlphaGrid) (h w : ℕ) (palette : List Pixel)
    (intensity thr : ℚ) (hasCb : Bool) : Grid × List ℚ :=
  let g2 :=
    (List.range h).foldl
      (fun g y => pwRow alpha thr (randomPixelF labOf palette rand intensity)
        w y g)
      grid
  (g2, if hasCb then [1] else [])

/-- The twelve dithering methods dispatched by the UI `switch`. -/
inductive DitherMethod
  | floydSteinberg | jarvis | stucki | burkes | atkinson | sierraLite
  | sierra2 | sierra3 | bayer | halftone | random | noDither

/-- Method dispatch (the `switch (dithering) { ... }` of the caller). -/
def applyDithering (m : DitherMethod) (labOf : Pixel → Pixel)
    (rand : ℕ → ℕ → ℕ → ℚ) (grid : Grid) (alpha : AlphaGrid) (h w : ℕ)
    (palette : List Pixel) (strength intensity thr : ℚ)
    (hasCb serpentine : Bool) : Grid × List ℚ :=
  match m with
  | .floydSteinberg =>
    applyFloydSteinbergDithering labOf grid alpha h w palette strength thr
      hasCb serpentine
  | .jarvis =>
    applyJarvisDithering labOf grid alpha h w palette strength thr hasCb
      serpentine
  | .stucki =>
    applyStuckiDithering labOf grid alpha h w palette strength thr hasCb
      serpentine
  | .burkes =>
    applyBurkesDithering labOf grid alpha h w palette strength thr hasCb
      serpentine
  | .atkinson =>
    applyAtkinsonDithering labOf grid alpha h w palette strength thr hasCb
      serpentine
  | .sierraLite =>
    applySierraLiteDithering labOf grid alpha h w palette strength thr hasCb
      serpentine
  | .sierra2 =>
    applySierra2Dithering labOf grid alpha h w palette strength thr hasCb
      serpentine
  | .sierra3 =>
    applySierra3Dithering labOf grid alpha h w palette strength thr hasCb
      serpentine
  | .bayer =>
    applyBayerDithering labOf grid alpha h w palette intensity thr hasCb
  | .halftone =>
    applyHalftoneDithering labOf grid alpha h w palette intensity thr hasCb
  | .random =>
    applyRandomDithering labOf rand grid alpha h w palette intensity thr hasCb
  | .noDither =>
    applyNoDithering labOf grid alpha h w palette thr hasCb

/-! ## Generic helpers -/

/-- Invariant preservation along a `foldl`. -/
theorem foldl_preserve {α β : Type} (P : α → Prop) (f : α → β → α)
    (hf : ∀ s b, P s → P (f s b)) :
    ∀ (l : List β) (s : α), P s → P (l.foldl f s)
  | [], _, hs => hs
  | b :: t, s, hs => foldl_preserve P f hf t (f s b) (hf s b hs)

/-- A `foldl` over a pair whose components evolve independently splits. -/
theorem foldl_pair {α β γ : Type} (f : α → γ → α) (g : β → γ → β) :
    ∀ (l : List γ) (a : α) (b : β),
      l.foldl (fun st c => (f st.1 c, g st.2 c)) (a, b) =
        (l.foldl f a, l.foldl g b)
  | [], _, _ => rfl
  | c :: t, a, b => foldl_pair f g t (f a c) (g b c)

theorem clamp_mem (v : ℚ) : 0 ≤ clamp v 0 255 ∧ clamp v 0 255 ≤ 255 := by
  constructor
  · exact le_min (le_max_right v 0) (by norm_num)
  · exact min_le_right _ _

theorem setPix_self (g : Grid) (y x : ℕ) (p : Pixel) : setPix g y x p y x = p := by
  simp [setPix]

theorem setPix_other (g : Grid) (y x : ℕ) (p : Pixel) (y0 x0 : ℕ)
    (hne : ¬(y0 = y ∧ x0 = x)) : setPix g y x p y0 x0 = g y0 x0 := by
  simp [setPix, hne]

/-! ## Characterizing the selection loop -/

/-- Invariant of the selection loop once the running minimum is finite:
either nothing beats `m` and `best` survives, or the result is the palette
element at the least index achieving the overall minimum (which also beats
`m`). -/
theorem selectLoop_go {β α : Type} [LinearOrder α] (f : β → α) (d : β)
    (cs : List β) : ∀ (m : α) (best : β),
    (selectLoop f cs (some m) best = best ∧ ∀ c ∈ cs, m ≤ f c) ∨
    (∃ i : ℕ, i < cs.length ∧ selectLoop f cs (some m) best = cs.getD i d ∧
      f (cs.getD i d) < m ∧
      (∀ j : ℕ, j < cs.length → f (cs.getD i d) ≤ f (cs.getD j d)) ∧
      (∀ j : ℕ, j < i → f (cs.getD i d) < f (cs.getD j d))) := by
  induction cs with
  | nil => intro m best; exact Or.inl ⟨rfl, by simp⟩
  | cons c t ih =>
    intro m best
    by_cases hc : f c < m
    · have hsel : selectLoop f (c :: t) (some m) best =
          selectLoop f t (some (f c)) c := by
        simp [selectLoop, ltOpt, hc]
      rcases ih (f c) c with ⟨heq, hall⟩ | ⟨i, hi, heq, hlt, hmin, hfirst⟩
      · refine Or.inr ⟨0, by simp, ?_, by simpa using hc, ?_, ?_⟩
        · rw [hsel, heq]; simp
        · intro j hj
          match j with
          | 0 => simp
          | j + 1 =>
            simp only [List.getD_cons_zero, List.getD_cons_succ]
            have hjlen : j < t.length := by simpa using hj
            have hmem : t.getD j d ∈ t := by
              rw [List.getD_eq_getElem _ _ hjlen]; exact List.getElem_mem hjlen
            exact hall _ hmem
        · intro j hj; exact absurd hj (Nat.not_lt_zero j)
      · refine Or.inr ⟨i + 1, by simpa using Nat.succ_lt_succ hi, ?_, ?_, ?_, ?_⟩
        · rw [hsel, heq]; simp
        · simpa using lt_trans hlt hc
        · intro j hj
          match j with
          | 0 =>
            simp only [List.getD_cons_zero, List.getD_cons_succ]
            exact le_of_lt hlt
          | j + 1 =>
            simp only [List.getD_cons_succ]
            exact hmin j (by simpa using hj)
        · intro j hj
          match j with
          | 0 => simpa using hlt
          | j + 1 =>
            simp only [List.getD_cons_succ]
            exact hfirst j (by omega)
    · have hm : m ≤ f c := not_lt.mp hc
      have hsel : selectLoop f (c :: t) (some m) best =
          selectLoop f t (some m) best := by
        simp [selectLoop, ltOpt, hc]
      rcases ih m best with ⟨heq, hall⟩ | ⟨i, hi, heq, hlt, hmin, hfirst⟩
      · refine Or.inl ⟨by rw [hsel, heq], ?_⟩
        intro c' hc'
        rcases List.mem_cons.mp hc' with h | h
        · exact h ▸ hm
        · exact hall c' h
      · refine Or.inr ⟨i + 1, by simpa using Nat.succ_lt_succ hi, ?_, ?_, ?_, ?_⟩
        · rw [hsel, heq]; simp
        · simpa using hlt
        · intro j hj
          match j with
          | 0 =>
            simp only [List.getD_cons_zero, List.getD_cons_succ]
            exact le_of_lt (lt_of_lt_of_le hlt hm)
          | j + 1 =>
            simp only [List.getD_cons_succ]
            exact hmin j (by simpa using hj)
        · intro j hj
          match j with
          | 0 => simpa using lt_of_lt_of_le hlt hm
          | j + 1 =>
            simp only [List.getD_cons_succ]
            exact hfirst j (by omega)

/-- The full selection loop (initial minimum `Infinity`, initial best
`palette[0]`) returns the entry at the least index achieving the minimum. -/
theorem selectLoop_char {β α : Type} [LinearOrder α] (f : β → α) (d : β)
    (c : β) (t : List β) :
    ∃ i : ℕ, i < (c :: t).length ∧
      selectLoop f (c :: t) none c = (c :: t).getD i d ∧
      (∀ j : ℕ, j < (c :: t).length →
        f ((c :: t).getD i d) ≤ f ((c :: t).getD j d)) ∧
      (∀ j : ℕ, j < i → f ((c :: t).getD i d) < f ((c :: t).getD j d)) := by
  have hsel : selectLoop f (c :: t) none c = selectLoop f t (some (f c)) c := by
    simp [selectLoop, ltOpt]
  rcases selectLoop_go f d t (f c) c with ⟨heq, hall⟩ | ⟨i, hi, heq, hlt, hmin, hfirst⟩
  · refine ⟨0, by simp, by rw [hsel, heq]; simp, ?_, ?_⟩
    · intro j hj
      match j with
      | 0 => simp
      | j + 1 =>
        simp only [List.getD_cons_zero, List.getD_cons_succ]
        have hjlen : j < t.length := by simpa using hj
        have hmem : t.getD j d ∈ t := by
          rw [List.getD_eq_getElem _ _ hjlen]; exact List.getElem_mem hjlen
        exact hall _ hmem
    · intro j hj; exact absurd hj (Nat.not_lt_zero j)
  · refine ⟨i + 1, by simpa using Nat.succ_lt_succ hi, by rw [hsel, heq]; simp,
      ?_, ?_⟩
    · intro j hj
      match j with
      | 0 =>
        simp only [List.getD_cons_zero, List.getD_cons_succ]
        exact le_of_lt hlt
      | j + 1 =>
        simp only [List.getD_cons_succ]
        exact hmin j (by simpa using hj)
    · intro j hj
      match j with
      | 0 => simpa using hlt
      | j + 1 =>
        simp only [List.getD_cons_succ]
        exact hfirst j (by omega)

/-! ## The three distance functions, named for the statements -/

/-- Squared-Euclidean RGB distance (mode `"rgb"`). -/
def rgbDist (pixel c : Pixel) : ℚ :=
  (c.1 - pixel.1) * (c.1 - pixel.1) +
    (c.2.1 - pixel.2.1) * (c.2.1 - pixel.2.1) +
    (c.2.2 - pixel.2.2) * (c.2.2 - pixel.2.2)

/-- The compuphase distance between a pixel and a candidate colour
(mode `"compuphase"`), after the `| 0` conversions. -/
def cpDist (pixel c : Pixel) : ℤ :=
  compuphaseD (jsToInt32 pixel.1) (jsToInt32 pixel.2.1) (jsToInt32 pixel.2.2)
    (jsToInt32 c.1) (jsToInt32 c.2.1) (jsToInt32 c.2.2)

/-- The Lab distance (mode `"lab"`), for an abstract `rgbToLab`. -/
def labDist (labOf : Pixel → Pixel) (pixel c : Pixel) : ℚ :=
  deltaE76 (labOf pixel) (labOf c)

/-- `i` is the least index in `[0, n)` achieving the minimum of `dist`. -/
def firstMinIdx {α : Type} [LinearOrder α] (dist : ℕ → α) (n i : ℕ) : Prop :=
  i < n ∧ (∀ j, j < n → dist i ≤ dist j) ∧ (∀ j, j < i → dist i < dist j)

theorem findClosest_nil (labOf : Pixel → Pixel) (mode : DistMode)
    (pixel : Pixel) :
    findClosestColorInPalette labOf mode pixel [] = (0, 0, 0) := by
  cases mode <;> rfl

theorem findClosest_rgb_char (labOf : Pixel → Pixel) (pixel : Pixel)
    (c : Pixel) (t : List Pixel) :
    ∃ i : ℕ,
      firstMinIdx (fun j => rgbDist pixel ((c :: t).getD j (0, 0, 0)))
        (c :: t).length i ∧
      findClosestColorInPalette labOf .rgb pixel (c :: t) =
        (c :: t).getD i (0, 0, 0) := by
  have hdef : findClosestColorInPalette labOf .rgb pixel (c :: t) =
      selectLoop (fun cc => rgbDist pixel cc) (c :: t) none c := rfl
  obtain ⟨i, hi, heq, hmin, hfirst⟩ :=
    selectLoop_char (fun cc => rgbDist pixel cc) ((0, 0, 0) : Pixel) c t
  exact ⟨i, ⟨hi, hmin, hfirst⟩, by rw [hdef, heq]⟩

theorem findClosest_cp_char (labOf : Pixel → Pixel) (pixel : Pixel)
    (c : Pixel) (t : List Pixel) :
    ∃ i : ℕ,
      firstMinIdx (fun j => cpDist pixel ((c :: t).getD j (0, 0, 0)))
        (c :: t).length i ∧
      findClosestColorInPalette labOf .compuphase pixel (c :: t) =
        (c :: t).getD i (0, 0, 0) := by
  have hdef : findClosestColorInPalette labOf .compuphase pixel (c :: t) =
      selectLoop (fun cc => cpDist pixel cc) (c :: t) none c := rfl
  obtain ⟨i, hi, heq, hmin, hfirst⟩ :=
    selectLoop_char (fun cc => cpDist pixel cc) ((0, 0, 0) : Pixel) c t
  exact ⟨i, ⟨hi, hmin, hfirst⟩, by rw [hdef, heq]⟩

theorem findClosest_lab_char (labOf : Pixel → Pixel) (pixel : Pixel)
    (c : Pixel) (t : List Pixel) :
    ∃ i : ℕ,
      firstMinIdx (fun j => labDist labOf pixel ((c :: t).getD j (0, 0, 0)))
        (c :: t).length i ∧
      findClosestColorInPalette labOf .lab pixel (c :: t) =
        (c :: t).getD i (0, 0, 0) := by
  have hlen : ((c :: t).map labOf).length = t.length + 1 := by simp
  have hdef : findClosestColorInPalette labOf .lab pixel (c :: t) =
      (c :: t).getD
        (selectLoop
          (fun i => deltaE76 (labOf pixel) (((c :: t).map labOf).getD i (0, 0, 0)))
          (List.range (((c :: t).map labOf).length)) none 0)
        (0, 0, 0) := rfl
  set fIdx : ℕ → ℚ :=
    fun i => deltaE76 (labOf pixel) (((c :: t).map labOf).getD i (0, 0, 0))
    with hfIdx
  have hrange : List.range (((c :: t).map labOf).length) =
      0 :: (List.range (t.length + 1 - 1)).map Nat.succ := by
    rw [hlen]
    exact List.range_succ_eq_map t.length ▸ by simp
  have hfid : ∀ j, j < (c :: t).length → fIdx j =
      labDist labOf pixel ((c :: t).getD j (0, 0, 0)) := by
    intro j hj
    have hj2 : j < ((c :: t).map labOf).length := by simpa using hj
    rw [hfIdx]
    show deltaE76 (labOf pixel) (((c :: t).map labOf).getD j (0, 0, 0)) = _
    rw [List.getD_eq_getElem _ _ hj2, List.getD_eq_getElem _ _ hj]
    simp only [List.getElem_map]
    rfl
  obtain ⟨i, hi, heq, hmin, hfirst⟩ :=
    selectLoop_char fIdx 0 0 ((List.range (t.length + 1 - 1)).map Nat.succ)
  have hlist : (0 :: (List.range (t.length + 1 - 1)).map Nat.succ) =
      List.range (t.length + 1) := by
    simpa using (List.range_succ_eq_map t.length).symm
  have hlen2 : (0 :: (List.range (t.length + 1 - 1)).map Nat.succ).length =
      t.length + 1 := by rw [hlist]; simp
  have hgetDr : ∀ j, j < t.length + 1 →
      (0 :: (List.range (t.length + 1 - 1)).map Nat.succ).getD j 0 = j := by
    intro j hj
    rw [hlist, List.getD_eq_getElem _ _ (by simpa using hj)]
    simp
  have hiN : i < t.length + 1 := by rw [hlen2] at hi; exact hi
  refine ⟨i, ⟨by simpa using hiN, ?_, ?_⟩, ?_⟩
  · intro j hj
    have hjN : j < t.length + 1 := by simpa using hj
    have := hmin j (by rw [hlen2]; exact hjN)
    rw [hgetDr i hiN, hgetDr j hjN] at this
    dsimp only
    rw [← hfid i (by simpa using hiN), ← hfid j (by simpa using hjN)]
    exact this
  · intro j hj
    have hjN : j < t.length + 1 := lt_trans hj hiN
    have := hfirst j hj
    rw [hgetDr i hiN, hgetDr j hjN] at this
    dsimp only
    rw [← hfid i (by simpa using hiN), ← hfid j (by simpa using hjN)]
    exact this
  · rw [hdef]
    congr 1
    have : List.range (((c :: t).map labOf).length) =
        0 :: (List.range (t.length + 1 - 1)).map Nat.succ := hrange
    rw [this]
    rw [heq, hgetDr i hiN]

theorem findClosest_mem (labOf : Pixel → Pixel) (mode : DistMode)
    (pixel : Pixel) (palette : List Pixel) (hne : palette ≠ []) :
    findClosestColorInPalette labOf mode pixel palette ∈ palette := by
  obtain ⟨c, t, rfl⟩ := List.exists_cons_of_ne_nil hne
  have hmem : ∀ i : ℕ, i < (c :: t).length →
      (c :: t).getD i ((0 : ℚ), (0 : ℚ), (0 : ℚ)) ∈ c :: t := by
    intro i hi
    rw [List.getD_eq_getElem _ _ hi]
    exact List.getElem_mem hi
  cases mode with
  | rgb =>
    obtain ⟨i, ⟨hi, _, _⟩, heq⟩ := findClosest_rgb_char labOf pixel c t
    rw [heq]; exact hmem i hi
  | compuphase =>
    obtain ⟨i, ⟨hi, _, _⟩, heq⟩ := findClosest_cp_char labOf pixel c t
    rw [heq]; exact hmem i hi
  | lab =>
    obtain ⟨i, ⟨hi, _, _⟩, heq⟩ := findClosest_lab_char labOf pixel c t
    rw [heq]; exact hmem i hi

theorem findClosest_mem_or_zero (labOf : Pixel → Pixel) (mode : DistMode)
    (pixel : Pixel) (palette : List Pixel) :
    findClosestColorInPalette labOf mode pixel palette = (0, 0, 0) ∨
      findClosestColorInPalette labOf mode pixel palette ∈ palette := by
  by_cases hne : palette = []
  · subst hne; exact Or.inl (findClosest_nil labOf mode pixel)
  · exact Or.inr (findClosest_mem labOf mode pixel palette hne)

theorem findClosest_inRange (labOf : Pixel → Pixel) (mode : DistMode)
    (pixel : Pixel) (palette : List Pixel)
    (hpal : ∀ p ∈ palette, inRange255 p) :
    inRange255 (findClosestColorInPalette labOf mode pixel palette) := by
  rcases findClosest_mem_or_zero labOf mode pixel palette with h | h
  · rw [h]; refine ⟨le_refl 0, by norm_num, le_refl 0, by norm_num, le_refl 0, by norm_num⟩
  · exact hpal _ h

/-! ## Pointwise evaluation of the stateless passes -/

theorem pwRow_foldl_eval (alpha : AlphaGrid) (thr : ℚ)
    (F : ℕ → ℕ → Pixel → Pixel) (y : ℕ) :
    ∀ (xs : List ℕ), xs.Nodup → ∀ (g : Grid) (y0 x0 : ℕ),
      (xs.foldl
        (fun g x => if alpha y x < thr then g else setPix g y x (F y x (g y x)))
        g) y0 x0 =
      if y0 = y ∧ x0 ∈ xs ∧ ¬alpha y x0 < thr then F y x0 (g y x0)
      else g y0 x0 := by
  intro xs
  induction xs with
  | nil => intro _ g y0 x0; simp
  | cons a t ih =>
    intro hnd g y0 x0
    have hat : a ∉ t := (List.nodup_cons.mp hnd).1
    have hndt : t.Nodup := (List.nodup_cons.mp hnd).2
    simp only [List.foldl_cons]
    set g1 : Grid := if alpha y a < thr then g else setPix g y a (F y a (g y a))
      with hg1def
    have hg1at : ∀ y1 x1 : ℕ, ¬(y1 = y ∧ x1 = a) → g1 y1 x1 = g y1 x1 := by
      intro y1 x1 hne
      rw [hg1def]
      by_cases hb : alpha y a < thr
      · rw [if_pos hb]
      · rw [if_neg hb, setPix_other _ _ _ _ _ _ hne]
    have hg1a : g1 y a = if alpha y a < thr then g y a else F y a (g y a) := by
      rw [hg1def]
      by_cases hb : alpha y a < thr
      · rw [if_pos hb, if_pos hb]
      · rw [if_neg hb, if_neg hb, setPix_self]
    rw [ih hndt g1 y0 x0]
    split_ifs with h1 h2 h3
    · obtain ⟨hy, hmem, hab⟩ := h1
      subst hy
      have hxa : x0 ≠ a := fun h => hat (h ▸ hmem)
      rw [hg1at y0 x0 (by tauto)]
    · obtain ⟨hy, hmem, hab⟩ := h1
      exact absurd ⟨hy, List.mem_cons_of_mem a hmem, hab⟩ h2
    · obtain ⟨hy, hmem, hab⟩ := h3
      subst hy
      have hxa : x0 = a := by
        rcases List.mem_cons.mp hmem with h | h
        · exact h
        · exact absurd ⟨rfl, h, hab⟩ h1
      subst hxa
      rw [hg1a, if_neg hab]
    · by_cases hya : y0 = y ∧ x0 = a
      · obtain ⟨hy, hxa⟩ := hya
        subst hxa; subst hy
        have hb : alpha y0 x0 < thr := by
          by_contra hb
          exact h3 ⟨rfl, List.mem_cons_self x0 t, hb⟩
        rw [hg1a, if_pos hb]
      · exact hg1at y0 x0 hya

theorem pwRow_eval (alpha : AlphaGrid) (thr : ℚ) (F : ℕ → ℕ → Pixel → Pixel)
    (w y : ℕ) (g : Grid) (y0 x0 : ℕ) :
    pwRow alpha thr F w y g y0 x0 =
      if y0 = y ∧ x0 < w ∧ ¬alpha y x0 < thr then F y x0 (g y x0)
      else g y0 x0 := by
  unfold pwRow
  rw [pwRow_foldl_eval alpha thr F y (List.range w) (List.nodup_range w) g y0 x0]
  simp only [List.mem_range]

theorem pwRows_eval (alpha : AlphaGrid) (thr : ℚ) (F : ℕ → ℕ → Pixel → Pixel)
    (w : ℕ) :
    ∀ (ys : List ℕ), ys.Nodup → ∀ (g : Grid) (y0 x0 : ℕ),
      (ys.foldl (fun g y => pwRow alpha thr F w y g) g) y0 x0 =
        if y0 ∈ ys ∧ x0 < w ∧ ¬alpha y0 x0 < thr then F y0 x0 (g y0 x0)
        else g y0 x0 := by
  intro ys
  induction ys with
  | nil => intro _ g y0 x0; simp
  | cons r t ih =>
    intro hnd g y0 x0
    have hrt : r ∉ t := (List.nodup_cons.mp hnd).1
    have hndt : t.Nodup := (List.nodup_cons.mp hnd).2
    simp only [List.foldl_cons]
    rw [ih hndt (pwRow alpha thr F w r g) y0 x0]
    split_ifs with h1 h2 h3
    · obtain ⟨hy, hcond⟩ := h1
      have hyr : y0 ≠ r := fun h => hrt (h ▸ hy)
      rw [pwRow_eval, if_neg (by tauto)]
    · obtain ⟨hy, hcond⟩ := h1
      exact absurd ⟨List.mem_cons_of_mem r hy, hcond⟩ h2
    · obtain ⟨hy, hcond⟩ := h3
      have hyr : y0 = r := by
        rcases List.mem_cons.mp hy with h | h
        · exact h
        · exact absurd ⟨h, hcond⟩ h1
      subst hyr
      rw [pwRow_eval, if_pos ⟨rfl, hcond⟩]
    · rw [pwRow_eval]
      by_cases hyr : y0 = r
      · subst hyr
        have hcond : ¬(x0 < w ∧ ¬alpha y0 x0 < thr) := by
          intro hc
          exact h3 ⟨List.mem_cons_self y0 t, hc⟩
        rw [if_neg (by tauto)]
      · rw [if_neg (by tauto)]

theorem pwPass_eval (alpha : AlphaGrid) (thr : ℚ) (F : ℕ → ℕ → Pixel → Pixel)
    (h w : ℕ) (grid : Grid) (y0 x0 : ℕ) :
    ((List.range h).foldl (fun g y => pwRow alpha thr F w y g) grid) y0 x0 =
      if y0 < h ∧ x0 < w ∧ ¬alpha y0 x0 < thr then F y0 x0 (grid y0 x0)
      else grid y0 x0 := by
  rw [pwRows_eval alpha thr F w (List.range h) (List.nodup_range h) grid y0 x0]
  simp only [List.mem_range]

theorem applyNoDithering_fst (labOf : Pixel → Pixel) (grid : Grid)
    (alpha : AlphaGrid) (h w : ℕ) (palette : List Pixel) (thr : ℚ)
    (hasCb : Bool) :
    (applyNoDithering labOf grid alpha h w palette thr hasCb).1 =
      (List.range h).foldl
        (fun g y => pwRow alpha thr
          (fun _ _ p => findClosestColorInPalette labOf .lab p palette) w y g)
        grid := by
  unfold applyNoDithering
  exact congrArg Prod.fst
    (foldl_pair
      (fun g y => pwRow alpha thr
        (fun _ _ p => findClosestColorInPalette labOf .lab p palette) w y g)
      (fun r y => progressStep hasCb (max 1 (h / 50)) h r y)
      (List.range h) grid [])

theorem applyNoDithering_eval (labOf : Pixel → Pixel) (grid : Grid)
    (alpha : AlphaGrid) (h w : ℕ) (palette : List Pixel) (thr : ℚ)
    (hasCb : Bool) (y0 x0 : ℕ) :
    (applyNoDithering labOf grid alpha h w palette thr hasCb).1 y0 x0 =
      if y0 < h ∧ x0 < w ∧ ¬alpha y0 x0 < thr
      then findClosestColorInPalette labOf .lab (grid y0 x0) palette
      else grid y0 x0 := by
  rw [applyNoDithering_fst, pwPass_eval]

theorem applyBayerDithering_fst (labOf : Pixel → Pixel) (grid : Grid)
    (alpha : AlphaGrid) (h w : ℕ) (palette : List Pixel) (intensity thr : ℚ)
    (hasCb : Bool) :
    (applyBayerDithering labOf grid alpha h w palette intensity thr hasCb).1 =
      (List.range h).foldl
        (fun g y => pwRow alpha thr (bayerPixelF labOf palette intensity) w y g)
        grid := by
  unfold applyBayerDithering
  exact congrArg Prod.fst
    (foldl_pair
      (fun g y => pwRow alpha thr (bayerPixelF labOf palette intensity) w y g)
      (fun r y => progressStep hasCb 25 h r y)
      (List.range h) grid [])

theorem applyBayerDithering_eval (labOf : Pixel → Pixel) (grid : Grid)
    (alpha : AlphaGrid) (h w : ℕ) (palette : List Pixel) (intensity thr : ℚ)
    (hasCb : Bool) (y0 x0 : ℕ) :
    (applyBayerDithering labOf grid alpha h w palette intensity thr hasCb).1
        y0 x0 =
      if y0 < h ∧ x0 < w ∧ ¬alpha y0 x0 < thr
      then bayerPixelF labOf palette intensity y0 x0 (grid y0 x0)
      else grid y0 x0 := by
  rw [applyBayerDithering_fst, pwPass_eval]

theorem applyHalftoneDithering_fst (labOf : Pixel → Pixel) (grid : Grid)
    (alpha : AlphaGrid) (h w : ℕ) (palette : List Pixel) (intensity thr : ℚ)
    (hasCb : Bool) :
    (applyHalftoneDithering labOf grid alpha h w palette intensity thr
        hasCb).1 =
      (List.range h).foldl
        (fun g y =>
          pwRow alpha thr (halftonePixelF labOf palette intensity) w y g)
        grid := by
  unfold applyHalftoneDithering
  exact congrArg Prod.fst
    (foldl_pair
      (fun g y =>
        pwRow alpha thr (halftonePixelF labOf palette intensity) w y g)
      (fun r y => progressStep hasCb 25 h r y)
      (List.range h) grid [])

theorem applyHalftoneDithering_eval (labOf : Pixel → Pixel) (grid : Grid)
    (alpha : AlphaGrid) (h w : ℕ) (palette : List Pixel) (intensity thr : ℚ)
    (hasCb : Bool) (y0 x0 : ℕ) :
    (applyHalftoneDithering labOf grid alpha h w palette intensity thr
        hasCb).1 y0 x0 =
      if y0 < h ∧ x0 < w ∧ ¬alpha y0 x0 < thr
      then halftonePixelF labOf palette intensity y0 x0 (grid y0 x0)
      else grid y0 x0 := by
  rw [applyHalftoneDithering_fst, pwPass_eval]

theorem applyRandomDithering_eval (labOf : Pixel → Pixel)
    (rand : ℕ → ℕ → ℕ → ℚ) (grid : Grid) (alpha : AlphaGrid) (h w : ℕ)
    (palette : List Pixel) (intensity thr : ℚ) (hasCb : Bool) (y0 x0 : ℕ) :
    (applyRandomDithering labOf rand grid alpha h w palette intensity thr
        hasCb).1 y0 x0 =
      if y0 < h ∧ x0 < w ∧ ¬alpha y0 x0 < thr
      then randomPixelF labOf palette rand intensity y0 x0 (grid y0 x0)
      else grid y0 x0 := by
  show ((List.range h).foldl
      (fun g y =>
        pwRow alpha thr (randomPixelF labOf palette rand intensity) w y g)
      grid) y0 x0 = _
  rw [pwPass_eval]

/-! ## Invariants of the error-diffusion scans -/

/-- All in-bounds pixels of the grid have channels in `[0, 255]`. -/
def gridInRange (h w : ℕ) (g : Grid) : Prop :=
  ∀ y x : ℕ, y < h → x < w → inRange255 (g y x)

/-- `g` agrees with `g0` at every below-threshold position. -/
def agreesBelow (alpha : AlphaGrid) (thr : ℚ) (g0 g : Grid) : Prop :=
  ∀ y x : ℕ, alpha y x < thr → g y x = g0 y x

theorem setPix_inRange (g : Grid) (h w y x : ℕ) (p : Pixel)
    (hg : gridInRange h w g) (hp : inRange255 p) :
    gridInRange h w (setPix g y x p) := by
  intro y1 x1 hy1 hx1
  by_cases he : y1 = y ∧ x1 = x
  · obtain ⟨h1, h2⟩ := he
    subst h1; subst h2
    rw [setPix_self]; exact hp
  · rw [setPix_other _ _ _ _ _ _ he]
    exact hg y1 x1 hy1 hx1

theorem setPix_agrees (alpha : AlphaGrid) (thr : ℚ) (g0 g : Grid) (y x : ℕ)
    (p : Pixel) (halpha : ¬alpha y x < thr)
    (hg : agreesBelow alpha thr g0 g) :
    agreesBelow alpha thr g0 (setPix g y x p) := by
  intro y1 x1 hb
  by_cases he : y1 = y ∧ x1 = x
  · obtain ⟨h1, h2⟩ := he
    subst h1; subst h2
    exact absurd hb halpha
  · rw [setPix_other _ _ _ _ _ _ he]
    exact hg y1 x1 hb

theorem diffuseToNeighbor_inRange (alpha : AlphaGrid) (thr : ℚ) (h w : ℕ)
    (err : Pixel) (y x : ℕ) (g : Grid) (n : Neighbor)
    (hg : gridInRange h w g) :
    gridInRange h w (diffuseToNeighbor alpha thr h w err y x g n) := by
  simp only [diffuseToNeighbor]
  split_ifs with h1 h2
  · exact hg
  · exact hg
  · exact setPix_inRange _ _ _ _ _ _ hg
      ⟨(clamp_mem _).1, (clamp_mem _).2, (clamp_mem _).1, (clamp_mem _).2,
        (clamp_mem _).1, (clamp_mem _).2⟩

theorem diffuseToNeighbor_agrees (alpha : AlphaGrid) (thr : ℚ) (h w : ℕ)
    (err : Pixel) (y x : ℕ) (g0 g : Grid) (n : Neighbor)
    (hg : agreesBelow alpha thr g0 g) :
    agreesBelow alpha thr g0 (diffuseToNeighbor alpha thr h w err y x g n) := by
  simp only [diffuseToNeighbor]
  split_ifs with h1 h2
  · exact hg
  · exact hg
  · exact setPix_agrees _ _ _ _ _ _ _ h2 hg

theorem edPixelStep_inRange (labOf : Pixel → Pixel) (palette : List Pixel)
    (alpha : AlphaGrid) (thr strength denom : ℚ) (h w : ℕ)
    (neigh : List Neighbor) (y : ℕ) (g : Grid) (x : ℕ)
    (hpal : ∀ p ∈ palette, inRange255 p) (hg : gridInRange h w g) :
    gridInRange h w
      (edPixelStep labOf palette alpha thr strength denom h w neigh y g x) := by
  simp only [edPixelStep]
  split_ifs with h1
  · exact hg
  · exact foldl_preserve (gridInRange h w) _
      (fun s n hs => diffuseToNeighbor_inRange alpha thr h w _ y x s n hs)
      neigh _
      (setPix_inRange _ _ _ _ _ _ hg
        (findClosest_inRange labOf .lab _ palette hpal))

theorem edPixelStep_agrees (labOf : Pixel → Pixel) (palette : List Pixel)
    (alpha : AlphaGrid) (thr strength denom : ℚ) (h w : ℕ)
    (neigh : List Neighbor) (y : ℕ) (g0 g : Grid) (x : ℕ)
    (hg : agreesBelow alpha thr g0 g) :
    agreesBelow alpha thr g0
      (edPixelStep labOf palette alpha thr strength denom h w neigh y g x) := by
  simp only [edPixelStep]
  split_ifs with h1
  · exact hg
  · exact foldl_preserve (agreesBelow alpha thr g0) _
      (fun s n hs => diffuseToNeighbor_agrees alpha thr h w _ y x g0 s n hs)
      neigh _ (setPix_agrees _ _ _ _ _ _ _ h1 hg)

theorem fsPixelStep_inRange (labOf : Pixel → Pixel) (palette : List Pixel)
    (alpha : AlphaGrid) (thr strength : ℚ) (h w : ℕ) (neigh : List Neighbor)
    (y : ℕ) (g : Grid) (x : ℕ)
    (hpal : ∀ p ∈ palette, inRange255 p) (hg : gridInRange h w g) :
    gridInRange h w
      (fsPixelStep labOf palette alpha thr strength h w neigh y g x) := by
  simp only [fsPixelStep]
  split_ifs with h1
  · exact hg
  · exact foldl_preserve (gridInRange h w) _
      (fun s n hs => diffuseToNeighbor_inRange alpha thr h w _ y x s n hs)
      neigh _
      (setPix_inRange _ _ _ _ _ _ hg
        (findClosest_inRange labOf .lab _ palette hpal))

theorem fsPixelStep_agrees (labOf : Pixel → Pixel) (palette : List Pixel)
    (alpha : AlphaGrid) (thr strength : ℚ) (h w : ℕ) (neigh : List Neighbor)
    (y : ℕ) (g0 g : Grid) (x : ℕ)
    (hg : agreesBelow alpha thr g0 g) :
    agreesBelow alpha thr g0
      (fsPixelStep labOf palette alpha thr strength h w neigh y g x) := by
  simp only [fsPixelStep]
  split_ifs with h1
  · exact hg
  · exact foldl_preserve (agreesBelow alpha thr g0) _
      (fun s n hs => diffuseToNeighbor_agrees alpha thr h w _ y x g0 s n hs)
      neigh _ (setPix_agrees _ _ _ _ _ _ _ h1 hg)

theorem errorDiffuse_fst (labOf : Pixel → Pixel) (grid : Grid)
    (alpha : AlphaGrid) (h w : ℕ) (palette : List Pixel)
    (wR wL : List Neighbor) (denom strength thr : ℚ)
    (hasCb serpentine : Bool) :
    (errorDiffuse labOf grid alpha h w palette wR wL denom strength thr hasCb
        serpentine).1 =
      (List.range h).foldl
        (fun g y => edRowGrid labOf palette alpha thr strength denom h w wR wL
          serpentine g y)
        grid := by
  unfold errorDiffuse
  exact congrArg Prod.fst
    (foldl_pair
      (fun g y => edRowGrid labOf palette alpha thr strength denom h w wR wL
        serpentine g y)
      (fun r y => progressStep hasCb (max 1 (h / 50)) h r y)
      (List.range h) grid [])

theorem applyFloydSteinbergDithering_fst (labOf : Pixel → Pixel) (grid : Grid)
    (alpha : AlphaGrid) (h w : ℕ) (palette : List Pixel) (strength thr : ℚ)
    (hasCb serpentine : Bool) :
    (applyFloydSteinbergDithering labOf grid alpha h w palette strength thr
        hasCb serpentine).1 =
      (List.range h).foldl
        (fun g y => fsRowGrid labOf palette alpha thr strength h w serpentine
          g y)
        grid := by
  unfold applyFloydSteinbergDithering
  exact congrArg Prod.fst
    (foldl_pair
      (fun g y => fsRowGrid labOf palette alpha thr strength h w serpentine
        g y)
      (fun r y => progressStep hasCb (max 1 (h / 50)) h r y)
      (List.range h) grid [])

theorem errorDiffuse_inRange (labOf : Pixel → Pixel) (grid : Grid)
    (alpha : AlphaGrid) (h w : ℕ) (palette : List Pixel)
    (wR wL : List Neighbor) (denom strength thr : ℚ)
    (hasCb serpentine : Bool)
    (hpal : ∀ p ∈ palette, inRange255 p) (hg : gridInRange h w grid) :
    gridInRange h w
      (errorDiffuse labOf grid alpha h w palette wR wL denom strength thr
        hasCb serpentine).1 := by
  rw [errorDiffuse_fst]
  refine foldl_preserve (gridInRange h w) _ ?_ (List.range h) grid hg
  intro s y hs
  exact foldl_preserve (gridInRange h w) _
    (fun s2 x hs2 =>
      edPixelStep_inRange labOf palette alpha thr strength denom h w _ y s2 x
        hpal hs2)
    _ s hs

theorem errorDiffuse_agrees (labOf : Pixel → Pixel) (grid : Grid)
    (alpha : AlphaGrid) (h w : ℕ) (palette : List Pixel)
    (wR wL : List Neighbor) (denom strength thr : ℚ)
    (hasCb serpentine : Bool) :
    agreesBelow alpha thr grid
      (errorDiffuse labOf grid alpha h w palette wR wL denom strength thr
        hasCb serpentine).1 := by
  rw [errorDiffuse_fst]
  refine foldl_preserve (agreesBelow alpha thr grid) _ ?_ (List.range h) grid
    (fun _ _ _ => rfl)
  intro s y hs
  exact foldl_preserve (agreesBelow alpha thr grid) _
    (fun s2 x hs2 =>
      edPixelStep_agrees labOf palette alpha thr strength denom h w _ y grid
        s2 x hs2)
    _ s hs

theorem applyFloydSteinbergDithering_inRange (labOf : Pixel → Pixel)
    (grid : Grid) (alpha : AlphaGrid) (h w : ℕ) (palette : List Pixel)
    (strength thr : ℚ) (hasCb serpentine : Bool)
    (hpal : ∀ p ∈ palette, inRange255 p) (hg : gridInRange h w grid) :
    gridInRange h w
      (applyFloydSteinbergDithering labOf grid alpha h w palette strength thr
        hasCb serpentine).1 := by
  rw [applyFloydSteinbergDithering_fst]
  refine foldl_preserve (gridInRange h w) _ ?_ (List.range h) grid hg
  intro s y hs
  exact foldl_preserve (gridInRange h w) _
    (fun s2 x hs2 =>
      fsPixelStep_inRange labOf palette alpha thr strength h w _ y s2 x hpal
        hs2)
    _ s hs

theorem applyFloydSteinbergDithering_agrees (labOf : Pixel → Pixel)
    (grid : Grid) (alpha : AlphaGrid) (h w : ℕ) (palette : List Pixel)
    (strength thr : ℚ) (hasCb serpentine : Bool) :
    agreesBelow alpha thr grid
      (applyFloydSteinbergDithering labOf grid alpha h w palette strength thr
        hasCb serpentine).1 := by
  rw [applyFloydSteinbergDithering_fst]
  refine foldl_preserve (agreesBelow alpha thr grid) _ ?_ (List.range h) grid
    (fun _ _ _ => rfl)
  intro s y hs
  exact foldl_preserve (agreesBelow alpha thr grid) _
    (fun s2 x hs2 =>
      fsPixelStep_agrees labOf palette alpha thr strength h w _ y grid s2 x
        hs2)
    _ s hs

/-! ## Scan-order effect lemmas (needed for the empty-palette pass) -/

theorem foldl_preserve_mem {α β : Type} (P : α → Prop) (f : α → β → α) :
    ∀ (l : List β), (∀ s b, b ∈ l → P s → P (f s b)) → ∀ (s : α), P s →
      P (l.foldl f s)
  | [], _, _, hs => hs
  | b :: t, hf, s, hs =>
    foldl_preserve_mem P f t
      (fun s2 b2 hb2 => hf s2 b2 (List.mem_cons_of_mem b hb2)) (f s b)
      (hf s b (List.mem_cons_self b t) hs)

theorem diffuseToNeighbor_untouched (alpha : AlphaGrid) (thr : ℚ) (h w : ℕ)
    (err : Pixel) (y x : ℕ) (g : Grid) (n : Neighbor) (y0 x0 : ℕ)
    (hne : ¬((y0 : ℤ) = (y : ℤ) + n.dy ∧ (x0 : ℤ) = (x : ℤ) + n.dx)) :
    diffuseToNeighbor alpha thr h w err y x g n y0 x0 = g y0 x0 := by
  simp only [diffuseToNeighbor]
  split_ifs with h1 h2
  · rfl
  · rfl
  · refine setPix_other _ _ _ _ _ _ ?_
    omega

theorem diffuseFold_untouched (alpha : AlphaGrid) (thr : ℚ) (h w : ℕ)
    (err : Pixel) (y x : ℕ) (neigh : List Neighbor) (g : Grid) (y0 x0 : ℕ)
    (hne : ∀ n ∈ neigh,
      ¬((y0 : ℤ) = (y : ℤ) + n.dy ∧ (x0 : ℤ) = (x : ℤ) + n.dx)) :
    (neigh.foldl (diffuseToNeighbor alpha thr h w err y x) g) y0 x0 =
      g y0 x0 :=
  foldl_preserve_mem (fun s => s y0 x0 = g y0 x0)
    (diffuseToNeighbor alpha thr h w err y x) neigh
    (fun s n hn hs => by
      show diffuseToNeighbor alpha thr h w err y x s n y0 x0 = g y0 x0
      rw [diffuseToNeighbor_untouched alpha thr h w err y x s n y0 x0
        (hne n hn)]
      exact hs)
    g rfl

/-- Every entry of a left-to-right kernel points strictly later in scan
order: strictly below, or ahead in the same row. -/
def kernOKRight (neigh : List Neighbor) : Prop :=
  ∀ n ∈ neigh, 0 ≤ n.dy ∧ (n.dy = 0 → 1 ≤ n.dx)

/-- Mirrored form for right-to-left rows. -/
def kernOKLeft (neigh : List Neighbor) : Prop :=
  ∀ n ∈ neigh, 0 ≤ n.dy ∧ (n.dy = 0 → n.dx ≤ -1)

instance (neigh : List Neighbor) : Decidable (kernOKRight neigh) := by
  unfold kernOKRight; infer_instance

instance (neigh : List Neighbor) : Decidable (kernOKLeft neigh) := by
  unfold kernOKLeft; infer_instance

theorem kernOKLeft_mirror (neigh : List Neighbor) (hk : kernOKRight neigh) :
    kernOKLeft (neigh.map mirrorN) := by
  intro n hn
  obtain ⟨m, hm, rfl⟩ := List.mem_map.mp hn
  obtain ⟨hdy, himp⟩ := hk m hm
  refine ⟨hdy, fun h0 => ?_⟩
  have := himp h0
  simp only [mirrorN]
  omega

theorem kern_ltr_untouched (neigh : List Neighbor) (y x y0 x0 : ℕ)
    (hk : kernOKRight neigh) (hpos : y0 < y ∨ (y0 = y ∧ x0 ≤ x)) :
    ∀ n ∈ neigh,
      ¬((y0 : ℤ) = (y : ℤ) + n.dy ∧ (x0 : ℤ) = (x : ℤ) + n.dx) := by
  intro n hn hcon
  obtain ⟨h1, h2⟩ := hcon
  obtain ⟨hdy, himp⟩ := hk n hn
  by_cases h0 : n.dy = 0
  · have := himp h0
    omega
  · omega

theorem kern_rtl_untouched (neigh : List Neighbor) (y x y0 x0 : ℕ)
    (hk : kernOKLeft neigh) (hpos : y0 < y ∨ (y0 = y ∧ x ≤ x0)) :
    ∀ n ∈ neigh,
      ¬((y0 : ℤ) = (y : ℤ) + n.dy ∧ (x0 : ℤ) = (x : ℤ) + n.dx) := by
  intro n hn hcon
  obtain ⟨h1, h2⟩ := hcon
  obtain ⟨hdy, himp⟩ := hk n hn
  by_cases h0 : n.dy = 0
  · have := himp h0
    omega
  · omega

theorem edPixelStep_effect (labOf : Pixel → Pixel) (palette : List Pixel)
    (alpha : AlphaGrid) (thr strength denom : ℚ) (h w : ℕ)
    (neigh : List Neighbor) (y : ℕ) (g : Grid) (x y0 x0 : ℕ)
    (hne : ∀ n ∈ neigh,
      ¬((y0 : ℤ) = (y : ℤ) + n.dy ∧ (x0 : ℤ) = (x : ℤ) + n.dx)) :
    edPixelStep labOf palette alpha thr strength denom h w neigh y g x y0 x0 =
      if y0 = y ∧ x0 = x ∧ ¬alpha y x < thr
      then findClosestColorInPalette labOf .lab (g y x) palette
      else g y0 x0 := by
  simp only [edPixelStep]
  split_ifs with hb hc hc2
  · exact (hc.2.2 hb).elim
  · rfl
  · obtain ⟨h1, h2, _⟩ := hc2
    subst h1; subst h2
    rw [diffuseFold_untouched alpha thr h w _ y0 x0 neigh _ y0 x0 hne,
      setPix_self]
  · rw [diffuseFold_untouched alpha thr h w _ y x neigh _ y0 x0 hne,
      setPix_other]
    intro hcon
    exact hc2 ⟨hcon.1, hcon.2, hb⟩

theorem fsPixelStep_effect (labOf : Pixel → Pixel) (palette : List Pixel)
    (alpha : AlphaGrid) (thr strength : ℚ) (h w : ℕ) (neigh : List Neighbor)
    (y : ℕ) (g : Grid) (x y0 x0 : ℕ)
    (hne : ∀ n ∈ neigh,
      ¬((y0 : ℤ) = (y : ℤ) + n.dy ∧ (x0 : ℤ) = (x : ℤ) + n.dx)) :
    fsPixelStep labOf palette alpha thr strength h w neigh y g x y0 x0 =
      if y0 = y ∧ x0 = x ∧ ¬alpha y x < thr
      then findClosestColorInPalette labOf .lab (g y x) palette
      else g y0 x0 := by
  simp only [fsPixelStep]
  split_ifs with hb hc hc2
  · exact (hc.2.2 hb).elim
  · rfl
  · obtain ⟨h1, h2, _⟩ := hc2
    subst h1; subst h2
    rw [diffuseFold_untouched alpha thr h w _ y0 x0 neigh _ y0 x0 hne,
      setPix_self]
  · rw [diffuseFold_untouched alpha thr h w _ y x neigh _ y0 x0 hne,
      setPix_other]
    intro hcon
    exact hc2 ⟨hcon.1, hcon.2, hb⟩

/-! ## Empty-palette scans write pure black everywhere above threshold -/

theorem scanRow_zero_ltr (alpha : AlphaGrid) (thr : ℚ) (y : ℕ)
    (S : Grid → ℕ → Grid)
    (heff : ∀ (g : Grid) (x y0 x0 : ℕ), (y0 < y ∨ (y0 = y ∧ x0 ≤ x)) →
      S g x y0 x0 =
        if y0 = y ∧ x0 = x ∧ ¬alpha y x < thr then ((0 : ℚ), (0 : ℚ), (0 : ℚ))
        else g y0 x0)
    (w : ℕ) :
    ∀ (m k : ℕ) (g : Grid), k + m = w →
      (∀ y1 x1 : ℕ, y1 < y → x1 < w → ¬alpha y1 x1 < thr →
        g y1 x1 = (0, 0, 0)) →
      (∀ x1 : ℕ, x1 < k → ¬alpha y x1 < thr → g y x1 = (0, 0, 0)) →
      (∀ y1 x1 : ℕ, y1 < y → x1 < w → ¬alpha y1 x1 < thr →
        ((List.range' k m).foldl S g) y1 x1 = (0, 0, 0)) ∧
      (∀ x1 : ℕ, x1 < w → ¬alpha y x1 < thr →
        ((List.range' k m).foldl S g) y x1 = (0, 0, 0)) := by
  intro m
  induction m with
  | zero =>
    intro k g hk hrows hpre
    refine ⟨fun y1 x1 hy1 hx1 ha => hrows y1 x1 hy1 hx1 ha,
      fun x1 hx1 ha => hpre x1 (by omega) ha⟩
  | succ m ih =>
    intro k g hk hrows hpre
    have hcons : (List.range' k (m + 1)).foldl S g =
        (List.range' (k + 1) m).foldl S (S g k) := rfl
    rw [hcons]
    refine ih (k + 1) (S g k) (by omega) ?_ ?_
    · intro y1 x1 hy1 hx1 ha
      rw [heff g k y1 x1 (Or.inl hy1), if_neg (by omega)]
      exact hrows y1 x1 hy1 hx1 ha
    · intro x1 hx1 ha
      rw [heff g k y x1 (Or.inr ⟨rfl, by omega⟩)]
      by_cases hxk : x1 = k
      · subst hxk
        rw [if_pos ⟨rfl, rfl, ha⟩]
      · rw [if_neg (by tauto)]
        exact hpre x1 (by omega) ha

theorem scanRow_zero_rtl (alpha : AlphaGrid) (thr : ℚ) (y : ℕ)
    (S : Grid → ℕ → Grid)
    (heff : ∀ (g : Grid) (x y0 x0 : ℕ), (y0 < y ∨ (y0 = y ∧ x ≤ x0)) →
      S g x y0 x0 =
        if y0 = y ∧ x0 = x ∧ ¬alpha y x < thr then ((0 : ℚ), (0 : ℚ), (0 : ℚ))
        else g y0 x0)
    (w : ℕ) :
    ∀ (j : ℕ) (g : Grid),
      (∀ y1 x1 : ℕ, y1 < y → x1 < w → ¬alpha y1 x1 < thr →
        g y1 x1 = (0, 0, 0)) →
      (∀ x1 : ℕ, j ≤ x1 → x1 < w → ¬alpha y x1 < thr → g y x1 = (0, 0, 0)) →
      (∀ y1 x1 : ℕ, y1 < y → x1 < w → ¬alpha y1 x1 < thr →
        (((List.range j).reverse).foldl S g) y1 x1 = (0, 0, 0)) ∧
      (∀ x1 : ℕ, x1 < w → ¬alpha y x1 < thr →
        (((List.range j).reverse).foldl S g) y x1 = (0, 0, 0)) := by
  intro j
  induction j with
  | zero =>
    intro g hrows hsuf
    refine ⟨fun y1 x1 hy1 hx1 ha => hrows y1 x1 hy1 hx1 ha,
      fun x1 hx1 ha => hsuf x1 (by omega) hx1 ha⟩
  | succ j ih =>
    intro g hrows hsuf
    have hcons : (List.range (j + 1)).reverse = j :: (List.range j).reverse := by
      rw [List.range_succ, List.reverse_append]
      simp
    rw [hcons]
    simp only [List.foldl_cons]
    refine ih (S g j) ?_ ?_
    · intro y1 x1 hy1 hx1 ha
      rw [heff g j y1 x1 (Or.inl hy1), if_neg (by omega)]
      exact hrows y1 x1 hy1 hx1 ha
    · intro x1 hx1 hx1w ha
      rw [heff g j y x1 (Or.inr ⟨rfl, by omega⟩)]
      by_cases hxj : x1 = j
      · subst hxj
        rw [if_pos ⟨rfl, rfl, ha⟩]
      · rw [if_neg (by tauto)]
        exact hsuf x1 (by omega) hx1w ha

theorem edRow_fold_zero_ltr (labOf : Pixel → Pixel) (alpha : AlphaGrid)
    (thr strength denom : ℚ) (h w : ℕ) (neigh : List Neighbor) (y : ℕ)
    (g : Grid) (hk : kernOKRight neigh)
    (hrows : ∀ y1 x1 : ℕ, y1 < y → x1 < w → ¬alpha y1 x1 < thr →
      g y1 x1 = (0, 0, 0)) :
    (∀ y1 x1 : ℕ, y1 < y → x1 < w → ¬alpha y1 x1 < thr →
      ((List.range w).foldl
        (edPixelStep labOf [] alpha thr strength denom h w neigh y) g) y1 x1 =
        (0, 0, 0)) ∧
    (∀ x1 : ℕ, x1 < w → ¬alpha y x1 < thr →
      ((List.range w).foldl
        (edPixelStep labOf [] alpha thr strength denom h w neigh y) g) y x1 =
        (0, 0, 0)) := by
  have heff : ∀ (g2 : Grid) (x y0 x0 : ℕ), (y0 < y ∨ (y0 = y ∧ x0 ≤ x)) →
      edPixelStep labOf [] alpha thr strength denom h w neigh y g2 x y0 x0 =
        if y0 = y ∧ x0 = x ∧ ¬alpha y x < thr then ((0 : ℚ), (0 : ℚ), (0 : ℚ))
        else g2 y0 x0 := by
    intro g2 x y0 x0 hpos
    rw [edPixelStep_effect labOf [] alpha thr strength denom h w neigh y g2 x
      y0 x0 (kern_ltr_untouched neigh y x y0 x0 hk hpos), findClosest_nil]
  rw [List.range_eq_range']
  exact scanRow_zero_ltr alpha thr y _ heff w w 0 g (by omega) hrows
    (fun x1 hx1 _ => absurd hx1 (Nat.not_lt_zero x1))

theorem edRow_fold_zero_rtl (labOf : Pixel → Pixel) (alpha : AlphaGrid)
    (thr strength denom : ℚ) (h w : ℕ) (neigh : List Neighbor) (y : ℕ)
    (g : Grid) (hk : kernOKLeft neigh)
    (hrows : ∀ y1 x1 : ℕ, y1 < y → x1 < w → ¬alpha y1 x1 < thr →
      g y1 x1 = (0, 0, 0)) :
    (∀ y1 x1 : ℕ, y1 < y → x1 < w → ¬alpha y1 x1 < thr →
      (((List.range w).reverse).foldl
        (edPixelStep labOf [] alpha thr strength denom h w neigh y) g) y1 x1 =
        (0, 0, 0)) ∧
    (∀ x1 : ℕ, x1 < w → ¬alpha y x1 < thr →
      (((List.range w).reverse).foldl
        (edPixelStep labOf [] alpha thr strength denom h w neigh y) g) y x1 =
        (0, 0, 0)) := by
  have heff : ∀ (g2 : Grid) (x y0 x0 : ℕ), (y0 < y ∨ (y0 = y ∧ x ≤ x0)) →
      edPixelStep labOf [] alpha thr strength denom h w neigh y g2 x y0 x0 =
        if y0 = y ∧ x0 = x ∧ ¬alpha y x < thr then ((0 : ℚ), (0 : ℚ), (0 : ℚ))
        else g2 y0 x0 := by
    intro g2 x y0 x0 hpos
    rw [edPixelStep_effect labOf [] alpha thr strength denom h w neigh y g2 x
      y0 x0 (kern_rtl_untouched neigh y x y0 x0 hk hpos), findClosest_nil]
  exact scanRow_zero_rtl alpha thr y _ heff w w g hrows
    (fun x1 hx1 hx1w _ => absurd hx1w (by omega))

theorem fsRow_fold_zero_ltr (labOf : Pixel → Pixel) (alpha : AlphaGrid)
    (thr strength : ℚ) (h w : ℕ) (neigh : List Neighbor) (y : ℕ)
    (g : Grid) (hk : kernOKRight neigh)
    (hrows : ∀ y1 x1 : ℕ, y1 < y → x1 < w → ¬alpha y1 x1 < thr →
      g y1 x1 = (0, 0, 0)) :
    (∀ y1 x1 : ℕ, y1 < y → x1 < w → ¬alpha y1 x1 < thr →
      ((List.range w).foldl
        (fsPixelStep labOf [] alpha thr strength h w neigh y) g) y1 x1 =
        (0, 0, 0)) ∧
    (∀ x1 : ℕ, x1 < w → ¬alpha y x1 < thr →
      ((List.range w).foldl
        (fsPixelStep labOf [] alpha thr strength h w neigh y) g) y x1 =
        (0, 0, 0)) := by
  have heff : ∀ (g2 : Grid) (x y0 x0 : ℕ), (y0 < y ∨ (y0 = y ∧ x0 ≤ x)) →
      fsPixelStep labOf [] alpha thr strength h w neigh y g2 x y0 x0 =
        if y0 = y ∧ x0 = x ∧ ¬alpha y x < thr then ((0 : ℚ), (0 : ℚ), (0 : ℚ))
        else g2 y0 x0 := by
    intro g2 x y0 x0 hpos
    rw [fsPixelStep_effect labOf [] alpha thr strength h w neigh y g2 x
      y0 x0 (kern_ltr_untouched neigh y x y0 x0 hk hpos), findClosest_nil]
  rw [List.range_eq_range']
  exact scanRow_zero_ltr alpha thr y _ heff w w 0 g (by omega) hrows
    (fun x1 hx1 _ => absurd hx1 (Nat.not_lt_zero x1))

theorem fsRow_fold_zero_rtl (labOf : Pixel → Pixel) (alpha : AlphaGrid)
    (thr strength : ℚ) (h w : ℕ) (neigh : List Neighbor) (y : ℕ)
    (g : Grid) (hk : kernOKLeft neigh)
    (hrows : ∀ y1 x1 : ℕ, y1 < y → x1 < w → ¬alpha y1 x1 < thr →
      g y1 x1 = (0, 0, 0)) :
    (∀ y1 x1 : ℕ, y1 < y → x1 < w → ¬alpha y1 x1 < thr →
      (((List.range w).reverse).foldl
        (fsPixelStep labOf [] alpha thr strength h w neigh y) g) y1 x1 =
        (0, 0, 0)) ∧
    (∀ x1 : ℕ, x1 < w → ¬alpha y x1 < thr →
      (((List.range w).reverse).foldl
        (fsPixelStep labOf [] alpha thr strength h w neigh y) g) y x1 =
        (0, 0, 0)) := by
  have heff : ∀ (g2 : Grid) (x y0 x0 : ℕ), (y0 < y ∨ (y0 = y ∧ x ≤ x0)) →
      fsPixelStep labOf [] alpha thr strength h w neigh y g2 x y0 x0 =
        if y0 = y ∧ x0 = x ∧ ¬alpha y x < thr then ((0 : ℚ), (0 : ℚ), (0 : ℚ))
        else g2 y0 x0 := by
    intro g2 x y0 x0 hpos
    rw [fsPixelStep_effect labOf [] alpha thr strength h w neigh y g2 x
      y0 x0 (kern_rtl_untouched neigh y x y0 x0 hk hpos), findClosest_nil]
  exact scanRow_zero_rtl alpha thr y _ heff w w g hrows
    (fun x1 hx1 hx1w _ => absurd hx1w (by omega))

theorem edRowGrid_zero (labOf : Pixel → Pixel) (alpha : AlphaGrid)
    (thr strength denom : ℚ) (h w : ℕ) (wR wL : List Neighbor)
    (serpentine : Bool) (y : ℕ) (g : Grid)
    (hkR : kernOKRight wR) (hkL : kernOKLeft wL)
    (hrows : ∀ y1 x1 : ℕ, y1 < y → x1 < w → ¬alpha y1 x1 < thr →
      g y1 x1 = (0, 0, 0)) :
    (∀ y1 x1 : ℕ, y1 < y → x1 < w → ¬alpha y1 x1 < thr →
      edRowGrid labOf [] alpha thr strength denom h w wR wL serpentine g y
        y1 x1 = (0, 0, 0)) ∧
    (∀ x1 : ℕ, x1 < w → ¬alpha y x1 < thr →
      edRowGrid labOf [] alpha thr strength denom h w wR wL serpentine g y
        y x1 = (0, 0, 0)) := by
  simp only [edRowGrid]
  cases hltr : rowLTR serpentine y with
  | true =>
    have h1 : rowXs true w = List.range w := rfl
    have h2 : (if (true : Bool) then wR else wL) = wR := rfl
    rw [h1, h2]
    exact edRow_fold_zero_ltr labOf alpha thr strength denom h w wR y g hkR
      hrows
  | false =>
    have h1 : rowXs false w = (List.range w).reverse := rfl
    have h2 : (if (false : Bool) then wR else wL) = wL := rfl
    rw [h1, h2]
    exact edRow_fold_zero_rtl labOf alpha thr strength denom h w wL y g hkL
      hrows

theorem fsRowGrid_zero (labOf : Pixel → Pixel) (alpha : AlphaGrid)
    (thr strength : ℚ) (h w : ℕ) (serpentine : Bool) (y : ℕ) (g : Grid)
    (hrows : ∀ y1 x1 : ℕ, y1 < y → x1 < w → ¬alpha y1 x1 < thr →
      g y1 x1 = (0, 0, 0)) :
    (∀ y1 x1 : ℕ, y1 < y → x1 < w → ¬alpha y1 x1 < thr →
      fsRowGrid labOf [] alpha thr strength h w serpentine g y y1 x1 =
        (0, 0, 0)) ∧
    (∀ x1 : ℕ, x1 < w → ¬alpha y x1 < thr →
      fsRowGrid labOf [] alpha thr strength h w serpentine g y y x1 =
        (0, 0, 0)) := by
  simp only [fsRowGrid]
  cases hltr : rowLTR serpentine y with
  | true =>
    have h1 : rowXs true w = List.range w := rfl
    have h2 : (if (true : Bool) then fsNeighRight else fsNeighLeft) =
        fsNeighRight := rfl
    rw [h1, h2]
    exact fsRow_fold_zero_ltr labOf alpha thr strength h w fsNeighRight y g
      (by decide) hrows
  | false =>
    have h1 : rowXs false w = (List.range w).reverse := rfl
    have h2 : (if (false : Bool) then fsNeighRight else fsNeighLeft) =
        fsNeighLeft := rfl
    rw [h1, h2]
    exact fsRow_fold_zero_rtl labOf alpha thr strength h w fsNeighLeft y g
      (by decide) hrows

theorem edPass_zero (labOf : Pixel → Pixel) (alpha : AlphaGrid)
    (thr strength denom : ℚ) (h w : ℕ) (wR wL : List Neighbor)
    (serpentine : Bool) (hkR : kernOKRight wR) (hkL : kernOKLeft wL) :
    ∀ (m r : ℕ) (g : Grid),
      (∀ y1 x1 : ℕ, y1 < r → x1 < w → ¬alpha y1 x1 < thr →
        g y1 x1 = (0, 0, 0)) →
      ∀ y1 x1 : ℕ, y1 < r + m → x1 < w → ¬alpha y1 x1 < thr →
        ((List.range' r m).foldl
          (fun g y => edRowGrid labOf [] alpha thr strength denom h w wR wL
            serpentine g y) g) y1 x1 = (0, 0, 0) := by
  intro m
  induction m with
  | zero =>
    intro r g hrows y1 x1 hy1 hx1 ha
    exact hrows y1 x1 (by omega) hx1 ha
  | succ m ih =>
    intro r g hrows y1 x1 hy1 hx1 ha
    have hcons : List.range' r (m + 1) = r :: List.range' (r + 1) m := rfl
    rw [hcons]
    simp only [List.foldl_cons]
    obtain ⟨hz1, hz2⟩ := edRowGrid_zero labOf alpha thr strength denom h w wR
      wL serpentine r g hkR hkL hrows
    refine ih (r + 1) _ ?_ y1 x1 (by omega) hx1 ha
    intro y2 x2 hy2 hx2 ha2
    rcases Nat.lt_succ_iff_lt_or_eq.mp hy2 with h' | h'
    · exact hz1 y2 x2 h' hx2 ha2
    · subst h'
      exact hz2 x2 hx2 ha2

theorem fsPass_zero (labOf : Pixel → Pixel) (alpha : AlphaGrid)
    (thr strength : ℚ) (h w : ℕ) (serpentine : Bool) :
    ∀ (m r : ℕ) (g : Grid),
      (∀ y1 x1 : ℕ, y1 < r → x1 < w → ¬alpha y1 x1 < thr →
        g y1 x1 = (0, 0, 0)) →
      ∀ y1 x1 : ℕ, y1 < r + m → x1 < w → ¬alpha y1 x1 < thr →
        ((List.range' r m).foldl
          (fun g y => fsRowGrid labOf [] alpha thr strength h w serpentine
            g y) g) y1 x1 = (0, 0, 0) := by
  intro m
  induction m with
  | zero =>
    intro r g hrows y1 x1 hy1 hx1 ha
    exact hrows y1 x1 (by omega) hx1 ha
  | succ m ih =>
    intro r g hrows y1 x1 hy1 hx1 ha
    have hcons : List.range' r (m + 1) = r :: List.range' (r + 1) m := rfl
    rw [hcons]
    simp only [List.foldl_cons]
    obtain ⟨hz1, hz2⟩ := fsRowGrid_zero labOf alpha thr strength h w
      serpentine r g hrows
    refine ih (r + 1) _ ?_ y1 x1 (by omega) hx1 ha
    intro y2 x2 hy2 hx2 ha2
    rcases Nat.lt_succ_iff_lt_or_eq.mp hy2 with h' | h'
    · exact hz1 y2 x2 h' hx2 ha2
    · subst h'
      exact hz2 x2 hx2 ha2

theorem errorDiffuse_empty_zero (labOf : Pixel → Pixel) (grid : Grid)
    (alpha : AlphaGrid) (h w : ℕ) (wR wL : List Neighbor)
    (denom strength thr : ℚ) (hasCb serpentine : Bool)
    (hkR : kernOKRight wR) (hkL : kernOKLeft wL) (y x : ℕ)
    (hy : y < h) (hx : x < w) (ha : ¬alpha y x < thr) :
    (errorDiffuse labOf grid alpha h w [] wR wL denom strength thr hasCb
      serpentine).1 y x = (0, 0, 0) := by
  rw [errorDiffuse_fst, List.range_eq_range']
  exact edPass_zero labOf alpha thr strength denom h w wR wL serpentine hkR
    hkL h 0 grid (fun y1 x1 hy1 _ _ => absurd hy1 (Nat.not_lt_zero y1)) y x
    (by omega) hx ha

theorem applyFloydSteinbergDithering_empty_zero (labOf : Pixel → Pixel)
    (grid : Grid) (alpha : AlphaGrid) (h w : ℕ) (strength thr : ℚ)
    (hasCb serpentine : Bool) (y x : ℕ)
    (hy : y < h) (hx : x < w) (ha : ¬alpha y x < thr) :
    (applyFloydSteinbergDithering labOf grid alpha h w [] strength thr hasCb
      serpentine).1 y x = (0, 0, 0) := by
  rw [applyFloydSteinbergDithering_fst, List.range_eq_range']
  exact fsPass_zero labOf alpha thr strength h w serpentine h 0 grid
    (fun y1 x1 hy1 _ _ => absurd hy1 (Nat.not_lt_zero y1)) y x
    (by omega) hx ha

/-! ## Progress-callback traces -/

theorem progress_foldl (every h : ℕ) :
    ∀ (l : List ℕ) (reps : List ℚ),
      l.foldl (progressStep true every h) reps =
        reps ++ (l.filter (fun y => y % every = 0)).map
          (fun y => ((y : ℚ) + 1) / (h : ℚ))
  | [], reps => by simp
  | y :: t, reps => by
    simp only [List.foldl_cons, progressStep]
    by_cases hy : y % every = 0
    · rw [if_pos (by simp [hy]), progress_foldl every h t
        (reps ++ [((y : ℚ) + 1) / (h : ℚ)])]
      simp [List.filter_cons, hy]
    · rw [if_neg (by simp [hy]), progress_foldl every h t reps]
      simp [List.filter_cons, hy]

/-- The expected progress trace: one call per reporting row, then `1`. -/
def progressTrace (every h : ℕ) : List ℚ :=
  ((List.range h).filter (fun y => y % every = 0)).map
    (fun y => ((y : ℚ) + 1) / (h : ℚ)) ++ [1]

theorem errorDiffuse_snd (labOf : Pixel → Pixel) (grid : Grid)
    (alpha : AlphaGrid) (h w : ℕ) (palette : List Pixel)
    (wR wL : List Neighbor) (denom strength thr : ℚ) (serpentine : Bool) :
    (errorDiffuse labOf grid alpha h w palette wR wL denom strength thr true
      serpentine).2 = progressTrace (max 1 (h / 50)) h := by
  have e1 : (errorDiffuse labOf grid alpha h w palette wR wL denom strength
      thr true serpentine).2 =
      ((List.range h).foldl
        (fun r y => progressStep true (max 1 (h / 50)) h r y) []) ++ [1] :=
    congrArg (fun l => l ++ [1])
      (congrArg Prod.snd
        (foldl_pair
          (fun g y => edRowGrid labOf palette alpha thr strength denom h w wR
            wL serpentine g y)
          (fun r y => progressStep true (max 1 (h / 50)) h r y)
          (List.range h) grid []))
  rw [e1]
  show ((List.range h).foldl (progressStep true (max 1 (h / 50)) h) []) ++ [1]
      = _
  rw [progress_foldl]
  simp [progressTrace]

theorem applyFloydSteinbergDithering_snd (labOf : Pixel → Pixel) (grid : Grid)
    (alpha : AlphaGrid) (h w : ℕ) (palette : List Pixel) (strength thr : ℚ)
    (serpentine : Bool) :
    (applyFloydSteinbergDithering labOf grid alpha h w palette strength thr
      true serpentine).2 = progressTrace (max 1 (h / 50)) h := by
  have e1 : (applyFloydSteinbergDithering labOf grid alpha h w palette
      strength thr true serpentine).2 =
      ((List.range h).foldl
        (fun r y => progressStep true (max 1 (h / 50)) h r y) []) ++ [1] :=
    congrArg (fun l => l ++ [1])
      (congrArg Prod.snd
        (foldl_pair
          (fun g y => fsRowGrid labOf palette alpha thr strength h w
            serpentine g y)
          (fun r y => progressStep true (max 1 (h / 50)) h r y)
          (List.range h) grid []))
  rw [e1]
  show ((List.range h).foldl (progressStep true (max 1 (h / 50)) h) []) ++ [1]
      = _
  rw [progress_foldl]
  simp [progressTrace]

theorem applyNoDithering_snd (labOf : Pixel → Pixel) (grid : Grid)
    (alpha : AlphaGrid) (h w : ℕ) (palette : List Pixel) (thr : ℚ) :
    (applyNoDithering labOf grid alpha h w palette thr true).2 =
      progressTrace (max 1 (h / 50)) h := by
  have e1 : (applyNoDithering labOf grid alpha h w palette thr true).2 =
      ((List.range h).foldl
        (fun r y => progressStep true (max 1 (h / 50)) h r y) []) ++ [1] :=
    congrArg (fun l => l ++ [1])
      (congrArg Prod.snd
        (foldl_pair
          (fun g y => pwRow alpha thr
            (fun _ _ p => findClosestColorInPalette labOf .lab p palette) w y
            g)
          (fun r y => progressStep true (max 1 (h / 50)) h r y)
          (List.range h) grid []))
  rw [e1]
  show ((List.range h).foldl (progressStep true (max 1 (h / 50)) h) []) ++ [1]
      = _
  rw [progress_foldl]
  simp [progressTrace]

theorem applyBayerDithering_snd (labOf : Pixel → Pixel) (grid : Grid)
    (alpha : AlphaGrid) (h w : ℕ) (palette : List Pixel)
    (intensity thr : ℚ) :
    (applyBayerDithering labOf grid alpha h w palette intensity thr true).2 =
      progressTrace 25 h := by
  have e1 : (applyBayerDithering labOf grid alpha h w palette intensity thr
      true).2 =
      ((List.range h).foldl (fun r y => progressStep true 25 h r y) []) ++
        [1] :=
    congrArg (fun l => l ++ [1])
      (congrArg Prod.snd
        (foldl_pair
          (fun g y => pwRow alpha thr (bayerPixelF labOf palette intensity) w
            y g)
          (fun r y => progressStep true 25 h r y)
          (List.range h) grid []))
  rw [e1]
  show ((List.range h).foldl (progressStep true 25 h) []) ++ [1] = _
  rw [progress_foldl]
  simp [progressTrace]

theorem applyHalftoneDithering_snd (labOf : Pixel → Pixel) (grid : Grid)
    (alpha : AlphaGrid) (h w : ℕ) (palette : List Pixel)
    (intensity thr : ℚ) :
    (applyHalftoneDithering labOf grid alpha h w palette intensity thr
      true).2 = progressTrace 25 h := by
  have e1 : (applyHalftoneDithering labOf grid alpha h w palette intensity thr
      true).2 =
      ((List.range h).foldl (fun r y => progressStep true 25 h r y) []) ++
        [1] :=
    congrArg (fun l => l ++ [1])
      (congrArg Prod.snd
        (foldl_pair
          (fun g y => pwRow alpha thr (halftonePixelF labOf palette intensity)
            w y g)
          (fun r y => progressStep true 25 h r y)
          (List.range h) grid []))
  rw [e1]
  show ((List.range h).foldl (progressStep true 25 h) []) ++ [1] = _
  rw [progress_foldl]
  simp [progressTrace]

theorem applyRandomDithering_snd (labOf : Pixel → Pixel)
    (rand : ℕ → ℕ → ℕ → ℚ) (grid : Grid) (alpha : AlphaGrid) (h w : ℕ)
    (palette : List Pixel) (intensity thr : ℚ) :
    (applyRandomDithering labOf rand grid alpha h w palette intensity thr
      true).2 = [1] := rfl

/-! ## Compuphase distance arithmetic -/

theorem toInt32_eq_self (n : ℤ) (h1 : -2 ^ 31 ≤ n) (h2 : n < 2 ^ 31) :
    toInt32 n = n := by
  unfold toInt32
  omega

theorem jsToInt32_intCast (n : ℤ) (h1 : -2 ^ 31 ≤ n) (h2 : n < 2 ^ 31) :
    jsToInt32 (n : ℚ) = n := by
  unfold jsToInt32 jsTrunc
  rw [Rat.num_intCast, Rat.den_intCast]
  simp only [Nat.cast_one, Int.ediv_one]
  exact toInt32_eq_self n h1 h2

theorem compuphaseD_formula (pr pg pb r g b : ℤ)
    (hpr : 0 ≤ pr ∧ pr ≤ 255) (hr : 0 ≤ r ∧ r ≤ 255)
    (hpb : 0 ≤ pb ∧ pb ≤ 255) (hbb : 0 ≤ b ∧ b ≤ 255) :
    compuphaseD pr pg pb r g b =
      (512 + (r + pr) / 2) * ((r - pr) * (r - pr)) / 256 +
        4 * ((g - pg) * (g - pg)) +
        (767 - (r + pr) / 2) * ((b - pb) * (b - pb)) / 256 := by
  simp only [compuphaseD, jsShr]
  rw [Int.fdiv_eq_ediv _ (by norm_num), Int.fdiv_eq_ediv _ (by norm_num),
    Int.fdiv_eq_ediv _ (by norm_num)]
  have hp1 : (2 : ℤ) ^ 1 = 2 := by norm_num
  have hp8 : (2 : ℤ) ^ 8 = 256 := by norm_num
  rw [hp1, hp8]
  have h1 : toInt32 (r + pr) = r + pr := toInt32_eq_self _ (by omega) (by omega)
  rw [h1]
  have hmb : 0 ≤ (r + pr) / 2 ∧ (r + pr) / 2 ≤ 255 := by omega
  have hd2 : 0 ≤ (r - pr) * (r - pr) := mul_self_nonneg _
  have hd2u : (r - pr) * (r - pr) ≤ 65025 := by nlinarith
  have he2 : 0 ≤ (b - pb) * (b - pb) := mul_self_nonneg _
  have he2u : (b - pb) * (b - pb) ≤ 65025 := by nlinarith
  have ha1 : (512 + (r + pr) / 2) * (r - pr) * (r - pr) =
      (512 + (r + pr) / 2) * ((r - pr) * (r - pr)) := mul_assoc _ _ _
  have ha2 : (767 - (r + pr) / 2) * (b - pb) * (b - pb) =
      (767 - (r + pr) / 2) * ((b - pb) * (b - pb)) := mul_assoc _ _ _
  rw [ha1, ha2]
  have hX0 : 0 ≤ (512 + (r + pr) / 2) * ((r - pr) * (r - pr)) :=
    mul_nonneg (by omega) hd2
  have hXu : (512 + (r + pr) / 2) * ((r - pr) * (r - pr)) ≤ 767 * 65025 := by
    calc (512 + (r + pr) / 2) * ((r - pr) * (r - pr)) ≤
        767 * ((r - pr) * (r - pr)) := by
          exact mul_le_mul_of_nonneg_right (by omega) hd2
      _ ≤ 767 * 65025 := by
          exact mul_le_mul_of_nonneg_left hd2u (by norm_num)
  have hZ0 : 0 ≤ (767 - (r + pr) / 2) * ((b - pb) * (b - pb)) :=
    mul_nonneg (by omega) he2
  have hZu : (767 - (r + pr) / 2) * ((b - pb) * (b - pb)) ≤ 767 * 65025 := by
    calc (767 - (r + pr) / 2) * ((b - pb) * (b - pb)) ≤
        767 * ((b - pb) * (b - pb)) := by
          exact mul_le_mul_of_nonneg_right (by omega) he2
      _ ≤ 767 * 65025 := by
          exact mul_le_mul_of_nonneg_left he2u (by norm_num)
  rw [toInt32_eq_self _ (by omega) (by omega),
    toInt32_eq_self _ (by omega) (by omega)]

/-! ## Floyd–Steinberg step, restated from the specification -/

/-- The Floyd–Steinberg offsets and weights as the spec lists them:
`(1,0):7, (−1,1):3, (0,1):5, (1,1):1` over denominator 16. -/
def fsSpecOffsets : List (ℤ × ℤ × ℚ) :=
  [(1, 0, 7), (-1, 1, 3), (0, 1, 5), (1, 1, 1)]

/-- One eligible pixel of a left-to-right Floyd–Steinberg row, written from
the spec's words: error `(original − chosen) × strength`, chosen colour
written back, each in-bounds above-threshold neighbour receives
`error × w/16` clamped to `[0,255]`, other targets skipped. -/
def fsStepSpec (labOf : Pixel → Pixel) (palette : List Pixel)
    (alpha : AlphaGrid) (thr strength : ℚ) (h w : ℕ) (y x : ℕ) (g : Grid) :
    Grid :=
  if alpha y x < thr then g
  else
    let orig := g y x
    let chosen := findClosestColorInPalette labOf .lab orig palette
    let err : Pixel :=
      ((orig.1 - chosen.1) * strength, (orig.2.1 - chosen.2.1) * strength,
        (orig.2.2 - chosen.2.2) * strength)
    let g1 := setPix g y x chosen
    fsSpecOffsets.foldl
      (fun g o =>
        if 0 ≤ (x : ℤ) + o.1 ∧ (x : ℤ) + o.1 < (w : ℤ) ∧
            0 ≤ (y : ℤ) + o.2.1 ∧ (y : ℤ) + o.2.1 < (h : ℤ) ∧
            ¬alpha ((y : ℤ) + o.2.1).toNat ((x : ℤ) + o.1).toNat < thr then
          let p := g ((y : ℤ) + o.2.1).toNat ((x : ℤ) + o.1).toNat
          setPix g ((y : ℤ) + o.2.1).toNat ((x : ℤ) + o.1).toNat
            (clamp (p.1 + err.1 * o.2.2 / 16) 0 255,
             clamp (p.2.1 + err.2.1 * o.2.2 / 16) 0 255,
             clamp (p.2.2 + err.2.2 * o.2.2 / 16) 0 255)
        else g)
      g1

theorem diffuseToNeighbor_eq_spec (alpha : AlphaGrid) (thr : ℚ) (h w : ℕ)
    (err : Pixel) (y x : ℕ) (g : Grid) (dx dy : ℤ) (wq : ℚ) :
    diffuseToNeighbor alpha thr h w err y x g ⟨dx, dy, wq / 16⟩ =
      (if 0 ≤ (x : ℤ) + dx ∧ (x : ℤ) + dx < (w : ℤ) ∧
          0 ≤ (y : ℤ) + dy ∧ (y : ℤ) + dy < (h : ℤ) ∧
          ¬alpha ((y : ℤ) + dy).toNat ((x : ℤ) + dx).toNat < thr then
        setPix g ((y : ℤ) + dy).toNat ((x : ℤ) + dx).toNat
          (clamp ((g ((y : ℤ) + dy).toNat ((x : ℤ) + dx).toNat).1 +
            err.1 * wq / 16) 0 255,
           clamp ((g ((y : ℤ) + dy).toNat ((x : ℤ) + dx).toNat).2.1 +
            err.2.1 * wq / 16) 0 255,
           clamp ((g ((y : ℤ) + dy).toNat ((x : ℤ) + dx).toNat).2.2 +
            err.2.2 * wq / 16) 0 255)
      else g) := by
  simp only [diffuseToNeighbor]
  by_cases h1 : (x : ℤ) + dx < 0 ∨ (w : ℤ) ≤ (x : ℤ) + dx ∨
      (y : ℤ) + dy < 0 ∨ (h : ℤ) ≤ (y : ℤ) + dy
  · have hno : ¬(0 ≤ (x : ℤ) + dx ∧ (x : ℤ) + dx < (w : ℤ) ∧
        0 ≤ (y : ℤ) + dy ∧ (y : ℤ) + dy < (h : ℤ) ∧
        ¬alpha ((y : ℤ) + dy).toNat ((x : ℤ) + dx).toNat < thr) := by
      intro hc
      rcases hc with ⟨c1, c2, c3, c4, _⟩
      omega
    rw [if_pos h1, if_neg hno]
  · by_cases h2 : alpha ((y : ℤ) + dy).toNat ((x : ℤ) + dx).toNat < thr
    · have hno : ¬(0 ≤ (x : ℤ) + dx ∧ (x : ℤ) + dx < (w : ℤ) ∧
          0 ≤ (y : ℤ) + dy ∧ (y : ℤ) + dy < (h : ℤ) ∧
          ¬alpha ((y : ℤ) + dy).toNat ((x : ℤ) + dx).toNat < thr) := by
        intro hc
        exact hc.2.2.2.2 h2
      rw [if_neg h1, if_pos h2, if_neg hno]
    · have harg : ∀ a e : ℚ, a + e * (wq / 16) = a + e * wq / 16 := by
        intro a e; ring
      rw [if_neg h1, if_neg h2,
        if_pos ⟨by omega, by omega, by omega, by omega, h2⟩,
        harg, harg, harg]

theorem fsPixelStep_eq_spec (labOf : Pixel → Pixel) (palette : List Pixel)
    (alpha : AlphaGrid) (thr strength : ℚ) (h w : ℕ) (y x : ℕ) (g : Grid) :
    fsPixelStep labOf palette alpha thr strength h w fsNeighRight y g x =
      fsStepSpec labOf palette alpha thr strength h w y x g := by
  simp only [fsPixelStep, fsStepSpec, fsNeighRight, fsSpecOffsets,
    List.foldl_cons, List.foldl_nil]
  by_cases hb : alpha y x < thr
  · rw [if_pos hb, if_pos hb]
  · rw [if_neg hb, if_neg hb]
    rw [diffuseToNeighbor_eq_spec, diffuseToNeighbor_eq_spec,
      diffuseToNeighbor_eq_spec, diffuseToNeighbor_eq_spec]

theorem fsRowGrid_ltr_spec (labOf : Pixel → Pixel) (palette : List Pixel)
    (alpha : AlphaGrid) (thr strength : ℚ) (h w : ℕ) (g : Grid) (y : ℕ) :
    fsRowGrid labOf palette alpha thr strength h w false g y =
      (List.range w).foldl
        (fun g x => fsStepSpec labOf palette alpha thr strength h w y x g)
        g := by
  have hstep : fsPixelStep labOf palette alpha thr strength h w fsNeighRight
      y = fun g x => fsStepSpec labOf palette alpha thr strength h w y x g :=
    funext fun g2 => funext fun x =>
      fsPixelStep_eq_spec labOf palette alpha thr strength h w y x g2
  have e1 : fsRowGrid labOf palette alpha thr strength h w false g y =
      (List.range w).foldl
        (fsPixelStep labOf palette alpha thr strength h w fsNeighRight y)
        g := rfl
  rw [e1, hstep]

/-! ## The claims -/

/-- C1: for every dithering method, any input grid with channels in
`[0, 255]`, any palette with entries in `[0, 255]`, and any
strength/intensity, every channel of every pixel of the returned grid lies
in `[0, 255]`. -/
theorem c1_clamping (m : DitherMethod) (labOf : Pixel → Pixel)
    (rand : ℕ → ℕ → ℕ → ℚ) (grid : Grid) (alpha : AlphaGrid) (h w : ℕ)
    (palette : List Pixel) (strength intensity thr : ℚ)
    (hasCb serpentine : Bool) (hgrid : gridInRange h w grid)
    (hpal : ∀ p ∈ palette, inRange255 p) :
    gridInRange h w
      (applyDithering m labOf rand grid alpha h w palette strength intensity
        thr hasCb serpentine).1 := by
  cases m with
  | floydSteinberg =>
    exact applyFloydSteinbergDithering_inRange labOf grid alpha h w palette
      strength thr hasCb serpentine hpal hgrid
  | jarvis =>
    exact errorDiffuse_inRange labOf grid alpha h w palette jarvisRight
      jarvisLeft 48 strength thr hasCb serpentine hpal hgrid
  | stucki =>
    exact errorDiffuse_inRange labOf grid alpha h w palette stuckiRight
      stuckiLeft 42 strength thr hasCb serpentine hpal hgrid
  | burkes =>
    exact errorDiffuse_inRange labOf grid alpha h w palette burkesRight
      burkesLeft 32 strength thr hasCb serpentine hpal hgrid
  | atkinson =>
    exact errorDiffuse_inRange labOf grid alpha h w palette atkinsonRight
      atkinsonLeft 8 strength thr hasCb serpentine hpal hgrid
  | sierraLite =>
    exact errorDiffuse_inRange labOf grid alpha h w palette sierraLiteRight
      sierraLiteLeft 4 strength thr hasCb serpentine hpal hgrid
  | sierra2 =>
    exact errorDiffuse_inRange labOf grid alpha h w palette sierra2Right
      sierra2Left 16 strength thr hasCb serpentine hpal hgrid
  | sierra3 =>
    exact errorDiffuse_inRange labOf grid alpha h w palette sierra3Right
      sierra3Left 32 strength thr hasCb serpentine hpal hgrid
  | bayer =>
    intro y x hy hx
    have he := applyBayerDithering_eval labOf grid alpha h w palette intensity
      thr hasCb y x
    rw [show (applyDithering .bayer labOf rand grid alpha h w palette strength
        intensity thr hasCb serpentine).1 y x =
      (applyBayerDithering labOf grid alpha h w palette intensity thr
        hasCb).1 y x from rfl, he]
    split_ifs with hc
    · exact findClosest_inRange labOf .lab _ palette hpal
    · exact hgrid y x hy hx
  | halftone =>
    intro y x hy hx
    have he := applyHalftoneDithering_eval labOf grid alpha h w palette
      intensity thr hasCb y x
    rw [show (applyDithering .halftone labOf rand grid alpha h w palette
        strength intensity thr hasCb serpentine).1 y x =
      (applyHalftoneDithering labOf grid alpha h w palette intensity thr
        hasCb).1 y x from rfl, he]
    split_ifs with hc
    · exact findClosest_inRange labOf .lab _ palette hpal
    · exact hgrid y x hy hx
  | random =>
    intro y x hy hx
    have he := applyRandomDithering_eval labOf rand grid alpha h w palette
      intensity thr hasCb y x
    rw [show (applyDithering .random labOf rand grid alpha h w palette
        strength intensity thr hasCb serpentine).1 y x =
      (applyRandomDithering labOf rand grid alpha h w palette intensity thr
        hasCb).1 y x from rfl, he]
    split_ifs with hc
    · exact findClosest_inRange labOf .lab _ palette hpal
    · exact hgrid y x hy hx
  | noDither =>
    intro y x hy hx
    have he := applyNoDithering_eval labOf grid alpha h w palette thr hasCb
      y x
    rw [show (applyDithering .noDither labOf rand grid alpha h w palette
        strength intensity thr hasCb serpentine).1 y x =
      (applyNoDithering labOf grid alpha h w palette thr hasCb).1 y x
      from rfl, he]
    split_ifs with hc
    · exact findClosest_inRange labOf .lab _ palette hpal
    · exact hgrid y x hy hx

theorem c1_clamping_witness :
    (gridInRange 1 1 (fun _ _ => ((100 : ℚ), (100 : ℚ), (100 : ℚ))) ∧
      ∀ p ∈ [((0 : ℚ), (0 : ℚ), (0 : ℚ)), ((255 : ℚ), (255 : ℚ), (255 : ℚ))],
        inRange255 p) ∧
    gridInRange 1 1
      (applyDithering .floydSteinberg (fun p => p) (fun _ _ _ => 0)
        (fun _ _ => ((100 : ℚ), (100 : ℚ), (100 : ℚ)))
        (fun _ _ => (255 : ℚ)) 1 1
        [((0 : ℚ), (0 : ℚ), (0 : ℚ)), ((255 : ℚ), (255 : ℚ), (255 : ℚ))]
        1 32 128 false false).1 :=
  ⟨⟨fun _ _ _ _ =>
      (by decide : inRange255 ((100 : ℚ), (100 : ℚ), (100 : ℚ))), by decide⟩,
    c1_clamping .floydSteinberg (fun p => p) (fun _ _ _ => 0)
      (fun _ _ => ((100 : ℚ), (100 : ℚ), (100 : ℚ)))
      (fun _ _ => (255 : ℚ)) 1 1
      [((0 : ℚ), (0 : ℚ), (0 : ℚ)), ((255 : ℚ), (255 : ℚ), (255 : ℚ))]
      1 32 128 false false
      (fun _ _ _ _ =>
        (by decide : inRange255 ((100 : ℚ), (100 : ℚ), (100 : ℚ))))
      (by decide)⟩

/-- C2: for every dithering method, a pixel whose alpha is below the
threshold is returned exactly equal to the input pixel — it is never
palette-matched and never receives diffused error. -/
theorem c2_alpha_passthrough (m : DitherMethod) (labOf : Pixel → Pixel)
    (rand : ℕ → ℕ → ℕ → ℚ) (grid : Grid) (alpha : AlphaGrid) (h w : ℕ)
    (palette : List Pixel) (strength intensity thr : ℚ)
    (hasCb serpentine : Bool) (y x : ℕ) (ha : alpha y x < thr) :
    (applyDithering m labOf rand grid alpha h w palette strength intensity
      thr hasCb serpentine).1 y x = grid y x := by
  cases m with
  | floydSteinberg =>
    exact applyFloydSteinbergDithering_agrees labOf grid alpha h w palette
      strength thr hasCb serpentine y x ha
  | jarvis =>
    exact errorDiffuse_agrees labOf grid alpha h w palette jarvisRight
      jarvisLeft 48 strength thr hasCb serpentine y x ha
  | stucki =>
    exact errorDiffuse_agrees labOf grid alpha h w palette stuckiRight
      stuckiLeft 42 strength thr hasCb serpentine y x ha
  | burkes =>
    exact errorDiffuse_agrees labOf grid alpha h w palette burkesRight
      burkesLeft 32 strength thr hasCb serpentine y x ha
  | atkinson =>
    exact errorDiffuse_agrees labOf grid alpha h w palette atkinsonRight
      atkinsonLeft 8 strength thr hasCb serpentine y x ha
  | sierraLite =>
    exact errorDiffuse_agrees labOf grid alpha h w palette sierraLiteRight
      sierraLiteLeft 4 strength thr hasCb serpentine y x ha
  | sierra2 =>
    exact errorDiffuse_agrees labOf grid alpha h w palette sierra2Right
      sierra2Left 16 strength thr hasCb serpentine y x ha
  | sierra3 =>
    exact errorDiffuse_agrees labOf grid alpha h w palette sierra3Right
      sierra3Left 32 strength thr hasCb serpentine y x ha
  | bayer =>
    have he := applyBayerDithering_eval labOf grid alpha h w palette intensity
      thr hasCb y x
    rw [show (applyDithering .bayer labOf rand grid alpha h w palette strength
        intensity thr hasCb serpentine).1 y x =
      (applyBayerDithering labOf grid alpha h w palette intensity thr
        hasCb).1 y x from rfl, he, if_neg (by tauto)]
  | halftone =>
    have he := applyHalftoneDithering_eval labOf grid alpha h w palette
      intensity thr hasCb y x
    rw [show (applyDithering .halftone labOf rand grid alpha h w palette
        strength intensity thr hasCb serpentine).1 y x =
      (applyHalftoneDithering labOf grid alpha h w palette intensity thr
        hasCb).1 y x from rfl, he, if_neg (by tauto)]
  | random =>
    have he := applyRandomDithering_eval labOf rand grid alpha h w palette
      intensity thr hasCb y x
    rw [show (applyDithering .random labOf rand grid alpha h w palette
        strength intensity thr hasCb serpentine).1 y x =
      (applyRandomDithering labOf rand grid alpha h w palette intensity thr
        hasCb).1 y x from rfl, he, if_neg (by tauto)]
  | noDither =>
    have he := applyNoDithering_eval labOf grid alpha h w palette thr hasCb
      y x
    rw [show (applyDithering .noDither labOf rand grid alpha h w palette
        strength intensity thr hasCb serpentine).1 y x =
      (applyNoDithering labOf grid alpha h w palette thr hasCb).1 y x
      from rfl, he, if_neg (by tauto)]

theorem c2_alpha_passthrough_witness :
    ((fun _ _ => (0 : ℚ)) 0 0 < (128 : ℚ)) ∧
    (applyDithering .floydSteinberg (fun p => p) (fun _ _ _ => 0)
      (fun _ _ => ((7 : ℚ), (8 : ℚ), (9 : ℚ))) (fun _ _ => (0 : ℚ)) 1 1
      [((0 : ℚ), (0 : ℚ), (0 : ℚ))] 1 32 128 false false).1 0 0 =
      (fun _ _ => ((7 : ℚ), (8 : ℚ), (9 : ℚ))) 0 0 :=
  ⟨by decide,
    c2_alpha_passthrough .floydSteinberg (fun p => p) (fun _ _ _ => 0)
      (fun _ _ => ((7 : ℚ), (8 : ℚ), (9 : ℚ))) (fun _ _ => (0 : ℚ)) 1 1
      [((0 : ℚ), (0 : ℚ), (0 : ℚ))] 1 32 128 false false 0 0 (by decide)⟩

/-- C3: for the no-dither, ordered (Bayer, halftone) and stochastic (random)
methods, every output pixel at or above the alpha threshold is exactly one
of the (non-empty) palette's entries. -/
theorem c3_palette_membership (labOf : Pixel → Pixel)
    (rand : ℕ → ℕ → ℕ → ℚ) (grid : Grid) (alpha : AlphaGrid) (h w : ℕ)
    (palette : List Pixel) (intensity thr : ℚ) (hasCb : Bool)
    (hne : palette ≠ []) (y x : ℕ) (hy : y < h) (hx : x < w)
    (ha : ¬alpha y x < thr) :
    (applyNoDithering labOf grid alpha h w palette thr hasCb).1 y x ∈
        palette ∧
    (applyBayerDithering labOf grid alpha h w palette intensity thr hasCb).1
        y x ∈ palette ∧
    (applyHalftoneDithering labOf grid alpha h w palette intensity thr
        hasCb).1 y x ∈ palette ∧
    (applyRandomDithering labOf rand grid alpha h w palette intensity thr
        hasCb).1 y x ∈ palette := by
  refine ⟨?_, ?_, ?_, ?_⟩
  · rw [applyNoDithering_eval, if_pos ⟨hy, hx, ha⟩]
    exact findClosest_mem labOf .lab _ palette hne
  · rw [applyBayerDithering_eval, if_pos ⟨hy, hx, ha⟩]
    exact findClosest_mem labOf .lab _ palette hne
  · rw [applyHalftoneDithering_eval, if_pos ⟨hy, hx, ha⟩]
    exact findClosest_mem labOf .lab _ palette hne
  · rw [applyRandomDithering_eval, if_pos ⟨hy, hx, ha⟩]
    exact findClosest_mem labOf .lab _ palette hne

theorem c3_palette_membership_witness :
    (([((3 : ℚ), (4 : ℚ), (5 : ℚ))] : List Pixel) ≠ [] ∧ (0 : ℕ) < 1 ∧
      (0 : ℕ) < 1 ∧ ¬((fun _ _ => (255 : ℚ)) 0 0 < (128 : ℚ))) ∧
    ((applyNoDithering (fun p => p) (fun _ _ => ((9 : ℚ), (9 : ℚ), (9 : ℚ)))
        (fun _ _ => (255 : ℚ)) 1 1 [((3 : ℚ), (4 : ℚ), (5 : ℚ))] 128
        false).1 0 0 ∈ ([((3 : ℚ), (4 : ℚ), (5 : ℚ))] : List Pixel) ∧
      (applyBayerDithering (fun p => p)
        (fun _ _ => ((9 : ℚ), (9 : ℚ), (9 : ℚ))) (fun _ _ => (255 : ℚ)) 1 1
        [((3 : ℚ), (4 : ℚ), (5 : ℚ))] 32 128 false).1 0 0 ∈
        ([((3 : ℚ), (4 : ℚ), (5 : ℚ))] : List Pixel) ∧
      (applyHalftoneDithering (fun p => p)
        (fun _ _ => ((9 : ℚ), (9 : ℚ), (9 : ℚ))) (fun _ _ => (255 : ℚ)) 1 1
        [((3 : ℚ), (4 : ℚ), (5 : ℚ))] 32 128 false).1 0 0 ∈
        ([((3 : ℚ), (4 : ℚ), (5 : ℚ))] : List Pixel) ∧
      (applyRandomDithering (fun p => p) (fun _ _ _ => 0)
        (fun _ _ => ((9 : ℚ), (9 : ℚ), (9 : ℚ))) (fun _ _ => (255 : ℚ)) 1 1
        [((3 : ℚ), (4 : ℚ), (5 : ℚ))] 32 128 false).1 0 0 ∈
        ([((3 : ℚ), (4 : ℚ), (5 : ℚ))] : List Pixel)) :=
  ⟨⟨by decide, by decide, by decide, by decide⟩,
    c3_palette_membership (fun p => p) (fun _ _ _ => 0)
      (fun _ _ => ((9 : ℚ), (9 : ℚ), (9 : ℚ))) (fun _ _ => (255 : ℚ)) 1 1
      [((3 : ℚ), (4 : ℚ), (5 : ℚ))] 32 128 false (by decide) 0 0 (by decide)
      (by decide) (by decide)⟩

/-- C4: in each distance mode, `findClosestColorInPalette` returns (a copy
of) the palette entry at the least index achieving the minimum distance,
ties broken by palette order. -/
theorem c4_first_minimizer (labOf : Pixel → Pixel) (pixel : Pixel)
    (palette : List Pixel) (hne : palette ≠ []) :
    (∃ i : ℕ,
      firstMinIdx (fun j => rgbDist pixel (palette.getD j (0, 0, 0)))
        palette.length i ∧
      findClosestColorInPalette labOf .rgb pixel palette =
        palette.getD i (0, 0, 0)) ∧
    (∃ i : ℕ,
      firstMinIdx (fun j => cpDist pixel (palette.getD j (0, 0, 0)))
        palette.length i ∧
      findClosestColorInPalette labOf .compuphase pixel palette =
        palette.getD i (0, 0, 0)) ∧
    (∃ i : ℕ,
      firstMinIdx (fun j => labDist labOf pixel (palette.getD j (0, 0, 0)))
        palette.length i ∧
      findClosestColorInPalette labOf .lab pixel palette =
        palette.getD i (0, 0, 0)) := by
  obtain ⟨c, t, rfl⟩ := List.exists_cons_of_ne_nil hne
  exact ⟨findClosest_rgb_char labOf pixel c t,
    findClosest_cp_char labOf pixel c t, findClosest_lab_char labOf pixel c t⟩

theorem c4_first_minimizer_witness :
    (([((1 : ℚ), (2 : ℚ), (3 : ℚ))] : List Pixel) ≠ []) ∧
    ((∃ i : ℕ,
      firstMinIdx
        (fun j => rgbDist ((9 : ℚ), (9 : ℚ), (9 : ℚ))
          (([((1 : ℚ), (2 : ℚ), (3 : ℚ))] : List Pixel).getD j (0, 0, 0)))
        ([((1 : ℚ), (2 : ℚ), (3 : ℚ))] : List Pixel).length i ∧
      findClosestColorInPalette (fun p => p) .rgb ((9 : ℚ), (9 : ℚ), (9 : ℚ))
        [((1 : ℚ), (2 : ℚ), (3 : ℚ))] =
        (([((1 : ℚ), (2 : ℚ), (3 : ℚ))] : List Pixel).getD i (0, 0, 0))) ∧
    (∃ i : ℕ,
      firstMinIdx
        (fun j => cpDist ((9 : ℚ), (9 : ℚ), (9 : ℚ))
          (([((1 : ℚ), (2 : ℚ), (3 : ℚ))] : List Pixel).getD j (0, 0, 0)))
        ([((1 : ℚ), (2 : ℚ), (3 : ℚ))] : List Pixel).length i ∧
      findClosestColorInPalette (fun p => p) .compuphase
        ((9 : ℚ), (9 : ℚ), (9 : ℚ)) [((1 : ℚ), (2 : ℚ), (3 : ℚ))] =
        (([((1 : ℚ), (2 : ℚ), (3 : ℚ))] : List Pixel).getD i (0, 0, 0))) ∧
    (∃ i : ℕ,
      firstMinIdx
        (fun j => labDist (fun p => p) ((9 : ℚ), (9 : ℚ), (9 : ℚ))
          (([((1 : ℚ), (2 : ℚ), (3 : ℚ))] : List Pixel).getD j (0, 0, 0)))
        ([((1 : ℚ), (2 : ℚ), (3 : ℚ))] : List Pixel).length i ∧
      findClosestColorInPalette (fun p => p) .lab ((9 : ℚ), (9 : ℚ), (9 : ℚ))
        [((1 : ℚ), (2 : ℚ), (3 : ℚ))] =
        (([((1 : ℚ), (2 : ℚ), (3 : ℚ))] : List Pixel).getD i (0, 0, 0)))) :=
  ⟨by decide,
    c4_first_minimizer (fun p => p) ((9 : ℚ), (9 : ℚ), (9 : ℚ))
      [((1 : ℚ), (2 : ℚ), (3 : ℚ))] (by decide)⟩

/-- C5: on a left-to-right row, each eligible Floyd–Steinberg pixel computes
error `(original − chosen) × strength`, writes the chosen colour, and adds
`error × w/16` (weights 7, 3, 5, 1 at offsets (1,0), (−1,1), (0,1), (1,1)),
clamped to `[0,255]`, to each in-bounds above-threshold neighbour,
skipping all other targets; the whole non-serpentine row is the left-to-right
fold of exactly this step. -/
theorem c5_floyd_steinberg_step (labOf : Pixel → Pixel)
    (palette : List Pixel) (alpha : AlphaGrid) (thr strength : ℚ)
    (h w : ℕ) (y x : ℕ) (g : Grid) :
    fsPixelStep labOf palette alpha thr strength h w fsNeighRight y g x =
      fsStepSpec labOf palette alpha thr strength h w y x g ∧
    fsRowGrid labOf palette alpha thr strength h w false g y =
      (List.range w).foldl
        (fun g x => fsStepSpec labOf palette alpha thr strength h w y x g)
        g :=
  ⟨fsPixelStep_eq_spec labOf palette alpha thr strength h w y x g,
    fsRowGrid_ltr_spec labOf palette alpha thr strength h w g y⟩

/-- C6: a row is scanned left-to-right exactly when serpentine is off or the
row index is even, and every method's right-to-left kernel is the
left-to-right kernel with every Δx negated. -/
theorem c6_serpentine_mirror (serpentine : Bool) (y : ℕ) :
    (rowLTR serpentine y = true ↔ (serpentine = false ∨ y % 2 = 0)) ∧
    jarvisLeft = jarvisRight.map mirrorN ∧
    stuckiLeft = stuckiRight.map mirrorN ∧
    burkesLeft = burkesRight.map mirrorN ∧
    atkinsonLeft = atkinsonRight.map mirrorN ∧
    sierraLiteLeft = sierraLiteRight.map mirrorN ∧
    sierra2Left = sierra2Right.map mirrorN ∧
    sierra3Left = sierra3Right.map mirrorN ∧
    fsNeighLeft = fsNeighRight.map mirrorN := by
  refine ⟨?_, rfl, rfl, rfl, rfl, rfl, rfl, rfl, ?_⟩
  · cases serpentine <;> simp [rowLTR]
  · rfl

/-- C7: in compuphase mode the distance over integer channel values equals
`(512+rmean)·dr²/256 + 4·dg² + (767−rmean)·db²/256` with
`rmean = (r_pixel + r_candidate)/2` (integer division), and the selected
entry is the first palette entry minimizing this distance. -/
theorem c7_compuphase_distance (labOf : Pixel → Pixel)
    (palette : List Pixel) (hne : palette ≠ []) (pixel : Pixel)
    (pr pg pb r g b : ℤ)
    (h1 : 0 ≤ pr ∧ pr ≤ 255) (h2 : 0 ≤ pg ∧ pg ≤ 255)
    (h3 : 0 ≤ pb ∧ pb ≤ 255) (h4 : 0 ≤ r ∧ r ≤ 255)
    (h5 : 0 ≤ g ∧ g ≤ 255) (h6 : 0 ≤ b ∧ b ≤ 255) :
    cpDist ((pr : ℚ), (pg : ℚ), (pb : ℚ)) ((r : ℚ), (g : ℚ), (b : ℚ)) =
      (512 + (r + pr) / 2) * ((r - pr) * (r - pr)) / 256 +
        4 * ((g - pg) * (g - pg)) +
        (767 - (r + pr) / 2) * ((b - pb) * (b - pb)) / 256 ∧
    ∃ i : ℕ,
      firstMinIdx (fun j => cpDist pixel (palette.getD j (0, 0, 0)))
        palette.length i ∧
      findClosestColorInPalette labOf .compuphase pixel palette =
        palette.getD i (0, 0, 0) := by
  constructor
  · show compuphaseD (jsToInt32 (pr : ℚ)) (jsToInt32 (pg : ℚ))
      (jsToInt32 (pb : ℚ)) (jsToInt32 (r : ℚ)) (jsToInt32 (g : ℚ))
      (jsToInt32 (b : ℚ)) = _
    rw [jsToInt32_intCast pr (by omega) (by omega),
      jsToInt32_intCast pg (by omega) (by omega),
      jsToInt32_intCast pb (by omega) (by omega),
      jsToInt32_intCast r (by omega) (by omega),
      jsToInt32_intCast g (by omega) (by omega),
      jsToInt32_intCast b (by omega) (by omega)]
    exact compuphaseD_formula pr pg pb r g b h1 h4 h3 h6
  · obtain ⟨c, t, rfl⟩ := List.exists_cons_of_ne_nil hne
    exact findClosest_cp_char labOf pixel c t

theorem c7_compuphase_distance_witness :
    (([((1 : ℚ), (2 : ℚ), (3 : ℚ))] : List Pixel) ≠ [] ∧
      ((0 : ℤ) ≤ 10 ∧ (10 : ℤ) ≤ 255) ∧ ((0 : ℤ) ≤ 20 ∧ (20 : ℤ) ≤ 255) ∧
      ((0 : ℤ) ≤ 30 ∧ (30 : ℤ) ≤ 255) ∧ ((0 : ℤ) ≤ 40 ∧ (40 : ℤ) ≤ 255) ∧
      ((0 : ℤ) ≤ 50 ∧ (50 : ℤ) ≤ 255) ∧ ((0 : ℤ) ≤ 60 ∧ (60 : ℤ) ≤ 255)) ∧
    (cpDist (((10 : ℤ) : ℚ), ((20 : ℤ) : ℚ), ((30 : ℤ) : ℚ))
        (((40 : ℤ) : ℚ), ((50 : ℤ) : ℚ), ((60 : ℤ) : ℚ)) =
      (512 + ((40 : ℤ) + 10) / 2) * ((40 - 10) * ((40 : ℤ) - 10)) / 256 +
        4 * ((50 - 20) * ((50 : ℤ) - 20)) +
        (767 - ((40 : ℤ) + 10) / 2) * ((60 - 30) * ((60 : ℤ) - 30)) / 256 ∧
      ∃ i : ℕ,
        firstMinIdx
          (fun j => cpDist ((9 : ℚ), (9 : ℚ), (9 : ℚ))
            (([((1 : ℚ), (2 : ℚ), (3 : ℚ))] : List Pixel).getD j (0, 0, 0)))
          ([((1 : ℚ), (2 : ℚ), (3 : ℚ))] : List Pixel).length i ∧
        findClosestColorInPalette (fun p => p) .compuphase
          ((9 : ℚ), (9 : ℚ), (9 : ℚ)) [((1 : ℚ), (2 : ℚ), (3 : ℚ))] =
          (([((1 : ℚ), (2 : ℚ), (3 : ℚ))] : List Pixel).getD i (0, 0, 0))) :=
  ⟨⟨by decide, by decide, by decide, by decide, by decide, by decide,
      by decide⟩,
    c7_compuphase_distance (fun p => p) [((1 : ℚ), (2 : ℚ), (3 : ℚ))]
      (by decide) ((9 : ℚ), (9 : ℚ), (9 : ℚ)) 10 20 30 40 50 60 (by decide)
      (by decide) (by decide) (by decide) (by decide) (by decide)⟩

/-- C8: Bayer dithering is stateless per pixel: the output at `(x, y)` is a
function only of the input pixel there, the coordinates, the intensity and
the palette, so any grid agreeing at `(x, y)` produces the same output
there. -/
theorem c8_bayer_stateless (labOf : Pixel → Pixel) (grid grid2 : Grid)
    (alpha : AlphaGrid) (h w : ℕ) (palette : List Pixel)
    (intensity thr : ℚ) (hasCb : Bool) (y x : ℕ) (hy : y < h) (hx : x < w)
    (hagree : grid2 y x = grid y x) :
    (applyBayerDithering labOf grid alpha h w palette intensity thr hasCb).1
        y x =
      (if alpha y x < thr then grid y x
        else bayerPixelF labOf palette intensity y x (grid y x)) ∧
    (applyBayerDithering labOf grid2 alpha h w palette intensity thr hasCb).1
        y x =
      (applyBayerDithering labOf grid alpha h w palette intensity thr
        hasCb).1 y x := by
  have he1 := applyBayerDithering_eval labOf grid alpha h w palette intensity
    thr hasCb y x
  have he2 := applyBayerDithering_eval labOf grid2 alpha h w palette
    intensity thr hasCb y x
  constructor
  · rw [he1]
    by_cases ha : alpha y x < thr
    · rw [if_neg (by tauto), if_pos ha]
    · rw [if_pos ⟨hy, hx, ha⟩, if_neg ha]
  · rw [he1, he2, hagree]

theorem c8_bayer_stateless_witness :
    ((0 : ℕ) < 1 ∧ (0 : ℕ) < 1 ∧
      (fun y x : ℕ => if y = 0 ∧ x = 0 then ((1 : ℚ), (2 : ℚ), (3 : ℚ))
        else ((50 : ℚ), (60 : ℚ), (70 : ℚ))) 0 0 =
        (fun _ _ : ℕ => ((1 : ℚ), (2 : ℚ), (3 : ℚ))) 0 0) ∧
    ((applyBayerDithering (fun p => p)
        (fun _ _ : ℕ => ((1 : ℚ), (2 : ℚ), (3 : ℚ)))
        (fun _ _ => (255 : ℚ)) 1 1 [((4 : ℚ), (5 : ℚ), (6 : ℚ))] 32 128
        false).1 0 0 =
      (if (fun _ _ : ℕ => (255 : ℚ)) 0 0 < (128 : ℚ)
        then (fun _ _ : ℕ => ((1 : ℚ), (2 : ℚ), (3 : ℚ))) 0 0
        else bayerPixelF (fun p => p) [((4 : ℚ), (5 : ℚ), (6 : ℚ))] 32 0 0
          ((fun _ _ : ℕ => ((1 : ℚ), (2 : ℚ), (3 : ℚ))) 0 0)) ∧
    (applyBayerDithering (fun p => p)
        (fun y x : ℕ => if y = 0 ∧ x = 0 then ((1 : ℚ), (2 : ℚ), (3 : ℚ))
          else ((50 : ℚ), (60 : ℚ), (70 : ℚ)))
        (fun _ _ => (255 : ℚ)) 1 1 [((4 : ℚ), (5 : ℚ), (6 : ℚ))] 32 128
        false).1 0 0 =
      (applyBayerDithering (fun p => p)
        (fun _ _ : ℕ => ((1 : ℚ), (2 : ℚ), (3 : ℚ)))
        (fun _ _ => (255 : ℚ)) 1 1 [((4 : ℚ), (5 : ℚ), (6 : ℚ))] 32 128
        false).1 0 0) :=
  ⟨⟨by decide, by decide, by decide⟩,
    c8_bayer_stateless (fun p => p)
      (fun _ _ : ℕ => ((1 : ℚ), (2 : ℚ), (3 : ℚ)))
      (fun y x : ℕ => if y = 0 ∧ x = 0 then ((1 : ℚ), (2 : ℚ), (3 : ℚ))
        else ((50 : ℚ), (60 : ℚ), (70 : ℚ)))
      (fun _ _ => (255 : ℚ)) 1 1 [((4 : ℚ), (5 : ℚ), (6 : ℚ))] 32 128 false
      0 0 (by decide) (by decide) (by decide)⟩

/-- C9 counterexample: with a callback present, the random (stochastic)
pass reports only the final `1`; it does not report on rows `y ≡ 0 (mod 25)`
as the claim states — already false on a 1×1 grid, where the claimed trace
would be `[1, 1]`. -/
theorem c9_progress_counterexample :
    (applyRandomDithering (fun p => p) (fun _ _ _ => 0)
      (fun _ _ => ((0 : ℚ), (0 : ℚ), (0 : ℚ))) (fun _ _ => (255 : ℚ)) 1 1
      [((0 : ℚ), (0 : ℚ), (0 : ℚ))] 32 128 true).2 ≠ progressTrace 25 1 := by
  intro hcon
  have hlen := congrArg List.length hcon
  have h1 : (applyRandomDithering (fun p => p) (fun _ _ _ => 0)
      (fun _ _ => ((0 : ℚ), (0 : ℚ), (0 : ℚ))) (fun _ _ => (255 : ℚ)) 1 1
      [((0 : ℚ), (0 : ℚ), (0 : ℚ))] 32 128 true).2 = [1] := rfl
  rw [h1] at hlen
  simp [progressTrace, List.filter] at hlen

/-- C9 (amended): with a callback present, error-diffusion and no-dither
passes report on every row `y` with `y mod max(1, ⌊height/50⌋) = 0` plus a
final `1`; the ordered (Bayer, halftone) engines report on every row `y`
with `y mod 25 = 0` plus a final `1`; the stochastic (random) engine
reports only the single final `1`. -/
theorem c9_progress_cadence (m : DitherMethod) (labOf : Pixel → Pixel)
    (rand : ℕ → ℕ → ℕ → ℚ) (grid : Grid) (alpha : AlphaGrid) (h w : ℕ)
    (palette : List Pixel) (strength intensity thr : ℚ)
    (serpentine : Bool) :
    (applyDithering m labOf rand grid alpha h w palette strength intensity
      thr true serpentine).2 =
      match m with
      | .bayer => progressTrace 25 h
      | .halftone => progressTrace 25 h
      | .random => [1]
      | _ => progressTrace (max 1 (h / 50)) h := by
  cases m with
  | floydSteinberg =>
    exact applyFloydSteinbergDithering_snd labOf grid alpha h w palette
      strength thr serpentine
  | jarvis =>
    exact errorDiffuse_snd labOf grid alpha h w palette jarvisRight
      jarvisLeft 48 strength thr serpentine
  | stucki =>
    exact errorDiffuse_snd labOf grid alpha h w palette stuckiRight
      stuckiLeft 42 strength thr serpentine
  | burkes =>
    exact errorDiffuse_snd labOf grid alpha h w palette burkesRight
      burkesLeft 32 strength thr serpentine
  | atkinson =>
    exact errorDiffuse_snd labOf grid alpha h w palette atkinsonRight
      atkinsonLeft 8 strength thr serpentine
  | sierraLite =>
    exact errorDiffuse_snd labOf grid alpha h w palette sierraLiteRight
      sierraLiteLeft 4 strength thr serpentine
  | sierra2 =>
    exact errorDiffuse_snd labOf grid alpha h w palette sierra2Right
      sierra2Left 16 strength thr serpentine
  | sierra3 =>
    exact errorDiffuse_snd labOf grid alpha h w palette sierra3Right
      sierra3Left 32 strength thr serpentine
  | bayer =>
    exact applyBayerDithering_snd labOf grid alpha h w palette intensity thr
  | halftone =>
    exact applyHalftoneDithering_snd labOf grid alpha h w palette intensity
      thr
  | random =>
    exact applyRandomDithering_snd labOf rand grid alpha h w palette
      intensity thr
  | noDither =>
    exact applyNoDithering_snd labOf grid alpha h w palette thr

/-- C10: with an empty palette, every method's pass completes and returns a
grid whose above-threshold pixels are exactly `(0, 0, 0)` (the
`findClosestColorInPalette` fallback) while below-threshold pixels keep
their input values. -/
theorem c10_empty_palette (m : DitherMethod) (labOf : Pixel → Pixel)
    (rand : ℕ → ℕ → ℕ → ℚ) (grid : Grid) (alpha : AlphaGrid) (h w : ℕ)
    (strength intensity thr : ℚ) (hasCb serpentine : Bool) (y x : ℕ)
    (hy : y < h) (hx : x < w) :
    (applyDithering m labOf rand grid alpha h w [] strength intensity thr
      hasCb serpentine).1 y x =
      if alpha y x < thr then grid y x else (0, 0, 0) := by
  cases m with
  | floydSteinberg =>
    by_cases ha : alpha y x < thr
    · rw [if_pos ha]
      exact applyFloydSteinbergDithering_agrees labOf grid alpha h w []
        strength thr hasCb serpentine y x ha
    · rw [if_neg ha]
      exact applyFloydSteinbergDithering_empty_zero labOf grid alpha h w
        strength thr hasCb serpentine y x hy hx ha
  | jarvis =>
    by_cases ha : alpha y x < thr
    · rw [if_pos ha]
      exact errorDiffuse_agrees labOf grid alpha h w [] jarvisRight
        jarvisLeft 48 strength thr hasCb serpentine y x ha
    · rw [if_neg ha]
      exact errorDiffuse_empty_zero labOf grid alpha h w jarvisRight
        jarvisLeft 48 strength thr hasCb serpentine (by decide) (by decide)
        y x hy hx ha
  | stucki =>
    by_cases ha : alpha y x < thr
    · rw [if_pos ha]
      exact errorDiffuse_agrees labOf grid alpha h w [] stuckiRight
        stuckiLeft 42 strength thr hasCb serpentine y x ha
    · rw [if_neg ha]
      exact errorDiffuse_empty_zero labOf grid alpha h w stuckiRight
        stuckiLeft 42 strength thr hasCb serpentine (by decide) (by decide)
        y x hy hx ha
  | burkes =>
    by_cases ha : alpha y x < thr
    · rw [if_pos ha]
      exact errorDiffuse_agrees labOf grid alpha h w [] burkesRight
        burkesLeft 32 strength thr hasCb serpentine y x ha
    · rw [if_neg ha]
      exact errorDiffuse_empty_zero labOf grid alpha h w burkesRight
        burkesLeft 32 strength thr hasCb serpentine (by decide) (by decide)
        y x hy hx ha
  | atkinson =>
    by_cases ha : alpha y x < thr
    · rw [if_pos ha]
      exact errorDiffuse_agrees labOf grid alpha h w [] atkinsonRight
        atkinsonLeft 8 strength thr hasCb serpentine y x ha
    · rw [if_neg ha]
      exact errorDiffuse_empty_zero labOf grid alpha h w atkinsonRight
        atkinsonLeft 8 strength thr hasCb serpentine (by decide) (by decide)
        y x hy hx ha
  | sierraLite =>
    by_cases ha : alpha y x < thr
    · rw [if_pos ha]
      exact errorDiffuse_agrees labOf grid alpha h w [] sierraLiteRight
        sierraLiteLeft 4 strength thr hasCb serpentine y x ha
    · rw [if_neg ha]
      exact errorDiffuse_empty_zero labOf grid alpha h w sierraLiteRight
        sierraLiteLeft 4 strength thr hasCb serpentine (by decide)
        (by decide) y x hy hx ha
  | sierra2 =>
    by_cases ha : alpha y x < thr
    · rw [if_pos ha]
      exact errorDiffuse_agrees labOf grid alpha h w [] sierra2Right
        sierra2Left 16 strength thr hasCb serpentine y x ha
    · rw [if_neg ha]
      exact errorDiffuse_empty_zero labOf grid alpha h w sierra2Right
        sierra2Left 16 strength thr hasCb serpentine (by decide) (by decide)
        y x hy hx ha
  | sierra3 =>
    by_cases ha : alpha y x < thr
    · rw [if_pos ha]
      exact errorDiffuse_agrees labOf grid alpha h w [] sierra3Right
        sierra3Left 32 strength thr hasCb serpentine y x ha
    · rw [if_neg ha]
      exact errorDiffuse_empty_zero labOf grid alpha h w sierra3Right
        sierra3Left 32 strength thr hasCb serpentine (by decide) (by decide)
        y x hy hx ha
  | bayer =>
    have he := applyBayerDithering_eval labOf grid alpha h w [] intensity thr
      hasCb y x
    rw [show (applyDithering .bayer labOf rand grid alpha h w [] strength
        intensity thr hasCb serpentine).1 y x =
      (applyBayerDithering labOf grid alpha h w [] intensity thr hasCb).1 y x
      from rfl, he]
    by_cases ha : alpha y x < thr
    · rw [if_neg (by tauto), if_pos ha]
    · rw [if_pos ⟨hy, hx, ha⟩, if_neg ha]
      rfl
  | halftone =>
    have he := applyHalftoneDithering_eval labOf grid alpha h w [] intensity
      thr hasCb y x
    rw [show (applyDithering .halftone labOf rand grid alpha h w [] strength
        intensity thr hasCb serpentine).1 y x =
      (applyHalftoneDithering labOf grid alpha h w [] intensity thr hasCb).1
        y x from rfl, he]
    by_cases ha : alpha y x < thr
    · rw [if_neg (by tauto), if_pos ha]
    · rw [if_pos ⟨hy, hx, ha⟩, if_neg ha]
      rfl
  | random =>
    have he := applyRandomDithering_eval labOf rand grid alpha h w []
      intensity thr hasCb y x
    rw [show (applyDithering .random labOf rand grid alpha h w [] strength
        intensity thr hasCb serpentine).1 y x =
      (applyRandomDithering labOf rand grid alpha h w [] intensity thr
        hasCb).1 y x from rfl, he]
    by_cases ha : alpha y x < thr
    · rw [if_neg (by tauto), if_pos ha]
    · rw [if_pos ⟨hy, hx, ha⟩, if_neg ha]
      rfl
  | noDither =>
    have he := applyNoDithering_eval labOf grid alpha h w [] thr hasCb y x
    rw [show (applyDithering .noDither labOf rand grid alpha h w [] strength
        intensity thr hasCb serpentine).1 y x =
      (applyNoDithering labOf grid alpha h w [] thr hasCb).1 y x from rfl,
      he]
    by_cases ha : alpha y x < thr
    · rw [if_neg (by tauto), if_pos ha]
    · rw [if_pos ⟨hy, hx, ha⟩, if_neg ha]
      rfl

theorem c10_empty_palette_witness :
    ((0 : ℕ) < 1 ∧ (0 : ℕ) < 1) ∧
    (applyDithering .jarvis (fun p => p) (fun _ _ _ => 0)
      (fun _ _ => ((7 : ℚ), (8 : ℚ), (9 : ℚ))) (fun _ _ => (255 : ℚ)) 1 1
      [] 1 32 128 false false).1 0 0 =
      (if (fun _ _ : ℕ => (255 : ℚ)) 0 0 < (128 : ℚ)
        then (fun _ _ : ℕ => ((7 : ℚ), (8 : ℚ), (9 : ℚ))) 0 0
        else (0, 0, 0)) :=
  ⟨⟨by decide, by decide⟩,
    c10_empty_palette .jarvis (fun p => p) (fun _ _ _ => 0)
      (fun _ _ => ((7 : ℚ), (8 : ℚ), (9 : ℚ))) (fun _ _ => (255 : ℚ)) 1 1
      1 32 128 false false 0 0 (by decide) (by decide)⟩
